import Mathlib

/-!
# Verification of the node-proxy image ingestion and feedback service

This file gives a shallow embedding, in Lean 4, of the duplicate-detection
/ ingestion pipeline and the feedback reconciler of the node-proxy
repository, and proves (or refutes) the frozen specification claims about
them.

Conventions of the embedding:
* Byte buffers are `List Nat` (each entry a byte value); machine words are
  `Nat` with explicit `% 2 ^ 32` arithmetic.
* DynamoDB tables are association lists keyed as in the source
  (`ImageHash`, or the pair `ImageHash`, `UserId`); a `PutItem` overwrites
  the item with the same key, an `UpdateItem` on a missing key creates the
  item, `ADD` on a missing number starts from 0 — all as DynamoDB does.
* The S3 `GetObject` performed by the verification step is modelled by an
  explicit `readBack` argument: the blob store is a fallible external
  collaborator, so the bytes that come back are chosen by the environment
  and need not equal the bytes that were written.
* External library calls whose output the handlers merely pass around are
  inputs of the embedded handlers: the perceptual hash (`imghash`/`sharp`),
  the `format` query parameter extracted by `new URL` in the Twitter
  branch, and the `JSON.parse(...).username` step of token decoding.
-/

set_option maxRecDepth 16000

namespace NodeProxy

/-! ## JavaScript string helpers

JS `String.prototype.includes`, `startsWith`, `split`, `slice` and
`path.extname`, modelled on `List Char`. -/

/-- Does `sub` occur as a contiguous run inside `l`? -/
def infixOfL (sub l : List Char) : Bool :=
  match l with
  | [] => sub.isEmpty
  | _ :: xs => sub.isPrefixOf l || infixOfL sub xs

/-- JS `a.includes(b)` on strings. -/
def jsIncludes (s sub : String) : Bool :=
  infixOfL sub.toList s.toList

/-- JS `a.startsWith(b)` on strings. -/
def jsStartsWith (s pre : String) : Bool :=
  pre.toList.isPrefixOf s.toList

/-- JS `String.prototype.split` with a one-character separator. -/
def splitOnChar (c : Char) : List Char → List (List Char)
  | [] => [[]]
  | x :: xs =>
    if x = c then [] :: splitOnChar c xs
    else
      match splitOnChar c xs with
      | [] => [[x]]
      | y :: ys => (x :: y) :: ys

/-- JS `s.slice(a, b)` on strings. -/
def jsSlice (s : String) (a b : Nat) : String :=
  String.mk ((s.toList.drop a).take (b - a))

/-- JS `s.slice(a)` on strings. -/
def jsSliceFrom (s : String) (a : Nat) : String :=
  String.mk (s.toList.drop a)

/-- JS `s.toLowerCase()` (ASCII letters suffice here). -/
def jsToLower (s : String) : String :=
  String.mk (s.toList.map Char.toLower)

/-- Node `path.extname`: the suffix of the file name starting at its last
dot, empty when there is no dot or the only dot is the leading character. -/
def extname (fileName : String) : String :=
  let l := fileName.toList
  if '.' ∈ l then
    let suffix := (l.reverse.takeWhile (· ≠ '.')).reverse
    if l.length = suffix.length + 1 then ""  -- the last dot is the leading character
    else String.mk ('.' :: suffix)
  else ""

/-! ## 32-bit arithmetic on `Nat`

Words are plain `Nat`s kept below `2 ^ 32` by explicit reduction. -/

def and32 (a b : Nat) : Nat := Nat.land a b
def or32 (a b : Nat) : Nat := Nat.lor a b
def xor32 (a b : Nat) : Nat := Nat.xor a b
def not32 (a : Nat) : Nat := Nat.xor a 4294967295
def add32 (a b : Nat) : Nat := (a + b) % 2 ^ 32
def rotr32 (n a : Nat) : Nat := or32 (a / 2 ^ n) (a * 2 ^ (32 - n) % 2 ^ 32)
def shr32 (n a : Nat) : Nat := a / 2 ^ n

/-! ## SHA-256 (FIPS 180-4), as invoked by `crypto.createHash("sha256")` -/

/-- The eight working variables of the SHA-256 compression function. -/
structure Sha256State where
  a : Nat
  b : Nat
  c : Nat
  d : Nat
  e : Nat
  f : Nat
  g : Nat
  h : Nat
deriving DecidableEq

/-- SHA-256 round constants (FIPS 180-4, written in decimal). -/
def sha256K : List Nat :=
  [1116352408, 1899447441, 3049323471, 3921009573, 961987163,
   1508970993, 2453635748, 2870763221, 3624381080, 310598401,
   607225278, 1426881987, 1925078388, 2162078206, 2614888103,
   3248222580, 3835390401, 4022224774, 264347078, 604807628,
   770255983, 1249150122, 1555081692, 1996064986, 2554220882,
   2821834349, 2952996808, 3210313671, 3336571891, 3584528711,
   113926993, 338241895, 666307205, 773529912, 1294757372,
   1396182291, 1695183700, 1986661051, 2177026350, 2456956037,
   2730485921, 2820302411, 3259730800, 3345764771, 3516065817,
   3600352804, 4094571909, 275423344, 430227734, 506948616,
   659060556, 883997877, 958139571, 1322822218, 1537002063,
   1747873779, 1955562222, 2024104815, 2227730452, 2361852424,
   2428436474, 2756734187, 3204031479, 3329325298]

/-- Initial hash value (FIPS 180-4, written in decimal). -/
def sha256Init : Sha256State :=
  ⟨1779033703, 3144134277, 1013904242, 2773480762,
   1359893119, 2600822924, 528734635, 1541459225⟩

def smallSigma0 (x : Nat) : Nat := xor32 (rotr32 7 x) (xor32 (rotr32 18 x) (shr32 3 x))
def smallSigma1 (x : Nat) : Nat := xor32 (rotr32 17 x) (xor32 (rotr32 19 x) (shr32 10 x))
def bigSigma0 (x : Nat) : Nat := xor32 (rotr32 2 x) (xor32 (rotr32 13 x) (rotr32 22 x))
def bigSigma1 (x : Nat) : Nat := xor32 (rotr32 6 x) (xor32 (rotr32 11 x) (rotr32 25 x))
def sha256Ch (x y z : Nat) : Nat := xor32 (and32 x y) (and32 (not32 x) z)
def sha256Maj (x y z : Nat) : Nat := xor32 (and32 x y) (xor32 (and32 x z) (and32 y z))

/-- SHA-256 padding: append `0x80`, zeros and the 64-bit bit length. -/
def sha256Pad (msg : List Nat) : List Nat :=
  let len := msg.length
  let r := (len + 1) % 64
  let k := (120 - r) % 64
  let bitLen := len * 8
  msg ++ [0x80] ++ List.replicate k 0 ++
    [bitLen / 2 ^ 56 % 256, bitLen / 2 ^ 48 % 256, bitLen / 2 ^ 40 % 256,
     bitLen / 2 ^ 32 % 256, bitLen / 2 ^ 24 % 256, bitLen / 2 ^ 16 % 256,
     bitLen / 2 ^ 8 % 256, bitLen % 256]

/-- Split a padded message into 64-byte blocks (fuelled). -/
def toBlocksF : Nat → List Nat → List (List Nat)
  | 0, _ => []
  | _, [] => []
  | fuel + 1, l => l.take 64 :: toBlocksF fuel (l.drop 64)

def toBlocks (l : List Nat) : List (List Nat) := toBlocksF l.length l

/-- Big-endian 32-bit words of a 64-byte block (fuelled). -/
def toWordsF : Nat → List Nat → List Nat
  | 0, _ => []
  | fuel + 1, b0 :: b1 :: b2 :: b3 :: rest =>
    (b0 * 2 ^ 24 + b1 * 2 ^ 16 + b2 * 2 ^ 8 + b3) % 2 ^ 32 :: toWordsF fuel rest
  | _ + 1, _ => []

def toWords (l : List Nat) : List Nat := toWordsF 16 l

/-- Extend the 16 message words to the 64-entry message schedule. -/
def extendSchedule : Nat → List Nat → List Nat
  | 0, w => w
  | fuel + 1, w =>
    let i := w.length
    let next := add32 (w.getD (i - 16) 0)
      (add32 (smallSigma0 (w.getD (i - 15) 0))
        (add32 (w.getD (i - 7) 0) (smallSigma1 (w.getD (i - 2) 0))))
    extendSchedule fuel (w ++ [next])

/-- One round of the compression function. -/
def sha256Round (st : Sha256State) (kw : Nat × Nat) : Sha256State :=
  let t1 := add32 st.h (add32 (bigSigma1 st.e)
    (add32 (sha256Ch st.e st.f st.g) (add32 kw.1 kw.2)))
  let t2 := add32 (bigSigma0 st.a) (sha256Maj st.a st.b st.c)
  ⟨add32 t1 t2, st.a, st.b, st.c, add32 st.d t1, st.e, st.f, st.g⟩

/-- Process one 64-byte block. -/
def sha256Block (st : Sha256State) (block : List Nat) : Sha256State :=
  let w := extendSchedule 48 (toWords block)
  let r := (sha256K.zip w).foldl sha256Round st
  ⟨add32 st.a r.a, add32 st.b r.b, add32 st.c r.c, add32 st.d r.d,
   add32 st.e r.e, add32 st.f r.f, add32 st.g r.g, add32 st.h r.h⟩

/-- The SHA-256 state after absorbing a whole (byte) message. -/
def sha256Digest (msg : List Nat) : Sha256State :=
  (toBlocks (sha256Pad msg)).foldl sha256Block sha256Init

/-- Lower-case hexadecimal digit. -/
def hexDigit (d : Nat) : Char :=
  "0123456789abcdef".toList.getD d 'x'

/-- The numeric value of a hexadecimal digit character. -/
def hexVal (c : Char) : Nat :=
  ("0123456789abcdef".toList.indexOf c)

/-- Eight hex characters of a 32-bit word, big-endian. -/
def hexWord (w : Nat) : List Char :=
  [hexDigit (w / 2 ^ 28 % 16), hexDigit (w / 2 ^ 24 % 16),
   hexDigit (w / 2 ^ 20 % 16), hexDigit (w / 2 ^ 16 % 16),
   hexDigit (w / 2 ^ 12 % 16), hexDigit (w / 2 ^ 8 % 16),
   hexDigit (w / 2 ^ 4 % 16), hexDigit (w % 16)]

/-- The 64 hex characters of a digest. -/
def digestChars (st : Sha256State) : List Char :=
  hexWord st.a ++ hexWord st.b ++ hexWord st.c ++ hexWord st.d ++
  hexWord st.e ++ hexWord st.f ++ hexWord st.g ++ hexWord st.h

/-- `crypto.createHash("sha256").update(bytes).digest("hex")`. -/
def sha256Hex (msg : List Nat) : String :=
  String.mk (digestChars (sha256Digest msg))

/-- The digest seen as a vector of 64 hex-digit values (the `% 16` is a
no-op on genuine digest characters; see `hexVal_sha256Hex_lt`). -/
def digitVec (b : List Nat) (i : Fin 64) : Fin 16 :=
  ⟨hexVal ((sha256Hex b).toList.getD i 'x') % 16, Nat.mod_lt _ (by norm_num)⟩

/-! ## Ingestion pipeline data model (part_003, first handler)

DynamoDB is an association list of image items keyed by `ImageHash`;
S3 is an association list of objects keyed by the object key. -/

/-- One DynamoDB item of the image table, with the attributes the
part_003 handler writes. -/
structure ImageItem where
  imageHash : String
  pHash : String
  s3ObjectUrl : String
  uploadDate : String
  originalFileName : String
  originWebsites : List String
  requestCount : Int
  imageOriginUrl : String
  fileExtension : String
  extensionSource : String
deriving DecidableEq

/-- A stored S3 object. -/
structure S3Object where
  key : String
  body : List Nat
  contentType : String
deriving DecidableEq

/-- The two stores the pipeline touches. -/
structure PipelineState where
  table : List ImageItem
  bucket : List S3Object
deriving DecidableEq

/-- `GetItem` on the image table (key `ImageHash`). -/
def lookupImage (table : List ImageItem) (hash : String) : Option ImageItem :=
  table.find? (fun it => it.imageHash = hash)

/-- `PutItem` on the image table: an unconditional write that replaces any
item with the same `ImageHash` (the command in the source carries no
`ConditionExpression`). -/
def putItemImage (table : List ImageItem) (item : ImageItem) : List ImageItem :=
  item :: table.filter (fun it => it.imageHash ≠ item.imageHash)

/-- `PutObject` on the bucket. -/
def s3Put (bucket : List S3Object) (obj : S3Object) : List S3Object :=
  obj :: bucket.filter (fun o => o.key ≠ obj.key)

/-- `new Set(existing).add(x)` then `Array.from`: JS sets keep insertion
order, so a new element is appended. -/
def jsSetAdd (l : List String) (x : String) : List String :=
  if x ∈ l then l else l ++ [x]

/-- The item produced when the reconcile `UpdateItem` hits a missing key
(DynamoDB creates the item, all other attributes absent). -/
def emptyImageItem : ImageItem := ⟨"", "", "", "", "", [], 0, "", "", ""⟩

/-- The reconcile `UpdateItem` of the duplicate and similar branches:
`SET originWebsites = :websites, requestCount =
if_not_exists(requestCount, :start) + :inc` with `ReturnValues: ALL_NEW`.
The `websites` argument is a literal value the caller computed in
application code from a previously read item; only the counter increment
is evaluated against the current stored value. -/
def reconcileUpdate (table : List ImageItem) (key : String)
    (websites : List String) : List ImageItem × ImageItem :=
  match lookupImage table key with
  | some cur =>
    let upd := { cur with originWebsites := websites,
                          requestCount := cur.requestCount + 1 }
    (putItemImage table upd, upd)
  | none =>
    let upd := { emptyImageItem with imageHash := key,
                                     originWebsites := websites,
                                     requestCount := 1 }
    (putItemImage table upd, upd)

/-- The allow-list of the part_003 ingestion handler. -/
def allowedOriginsIngest : List String :=
  ["https://www.linkedin.com", "https://www.facebook.com",
   "https://www.twitter.com", "https://www.x.com",
   "https://www.instagram.com", "https://www.reddit.com",
   "https://realeyes.ai"]

/-- Lower-case hex of a byte. -/
def byteHex (b : Nat) : List Char := [hexDigit (b / 16 % 16), hexDigit (b % 16)]

/-- `buffer.toString("hex")`. -/
def bytesToHex (l : List Nat) : String := String.mk (l.map byteHex).flatten

/-- The MIME fallback table of `getFileExtensionFromData`. -/
def mimeToExt (mimeType : String) : Option String :=
  if mimeType = "image/jpeg" then some ".jpg"
  else if mimeType = "image/png" then some ".png"
  else if mimeType = "image/gif" then some ".gif"
  else if mimeType = "image/webp" then some ".webp"
  else if mimeType = "image/svg+xml" then some ".svg"
  else if mimeType = "image/bmp" then some ".bmp"
  else if mimeType = "image/tiff" then some ".tiff"
  else none

/-- `getFileExtensionFromData` of part_003: filename extension, then the
Twitter `format` query parameter (`urlFormat` stands for
`new URL(url).searchParams.get("format")`), then magic-number headers,
then the MIME table, then `.bin`. -/
def getFileExtensionFromData (fileName url mimeType : String)
    (fileData : List Nat) (urlFormat : Option String) : String × String :=
  let ext0 := jsToLower (extname fileName)
  if ext0 ≠ "" ∧ ext0.length > 1 then (ext0, "filename")
  else
    let fromUrl : Option (String × String) :=
      if url ≠ "" ∧ jsIncludes url "twimg.com" then
        match urlFormat with
        | some format => some ("." ++ jsToLower format, "URL format")
        | none => none
      else none
    match fromUrl with
    | some r => r
    | none =>
      let header := bytesToHex (fileData.take 12)
      let extSrc :=
        if jsStartsWith header "ffd8ffe0" ∨ jsStartsWith header "ffd8ffe1" then
          (".jpg", "file header")
        else if jsStartsWith header "89504e470d0a1a0a" then (".png", "file header")
        else if jsStartsWith header "474946383961" ∨ jsStartsWith header "474946383761" then
          (".gif", "file header")
        else if jsStartsWith header "52494646" ∧ jsSlice header 16 24 = "57454250" then
          (".webp", "file header")
        else (ext0, "")
      if extSrc.1 ≠ "" then (extSrc.1, extSrc.2)
      else
        match mimeToExt mimeType with
        | some e => (e, "MIME type")
        | none => (".bin", "default")

/-- Deployment-supplied environment values (opaque strings here). -/
def s3BucketName : String := "S3_BUCKET"

def awsRegion : String := "us-east-2"

/-- A parsed multipart file as delivered by `lambda-multipart-parser`. -/
structure MultipartFile where
  content : List Nat
  filename : String
  contentType : String
  url : String
deriving DecidableEq

/-- The HTTP-level inputs of the ingestion handler. `origin` is the
coalesced `event.headers.origin || event.headers.Origin` (assumed present:
an absent origin makes the source crash inside the storage SDK, a path no
claim concerns). `files` is the output of the multipart parser. -/
structure IngestEvent where
  httpMethod : String
  origin : String
  contentTypeHeader : Option String
  files : List MultipartFile
deriving DecidableEq

/-- The JSON response of the ingestion handler (fields that a given branch
does not emit are `none`). -/
structure IngestResponse where
  statusCode : Nat
  allowOrigin : String
  allowHeaders : Option String := none
  message : Option String := none
  errorMsg : Option String := none
  details : Option String := none
  imageHash : Option String := none
  pHash : Option String := none
  s3ObjectUrl : Option String := none
  dataMatch : Option Bool := none
  originalFileName : Option String := none
  originWebsites : Option (List String) := none
  requestCount : Option Int := none
  imageOriginUrl : Option String := none
  fileExtension : Option String := none
  extensionSource : Option String := none
deriving DecidableEq

/-- Response plus the post-request store state. -/
structure IngestOutcome where
  response : IngestResponse
  state : PipelineState
deriving DecidableEq

/-- The part_003 ingestion handler. `pHash` is the value `calculatePHash`
returned (external `sharp`/`imghash` computation), `now` the current
timestamp, and `readBack` the bytes the verification `GetObject` returned
from the fallible blob store. -/
def handlerIngest (ev : IngestEvent) (pHash : String) (urlFormat : Option String)
    (now : String) (readBack : List Nat) (st : PipelineState) : IngestOutcome :=
  let allowOrigin :=
    if ev.origin ∈ allowedOriginsIngest then ev.origin else "https://www.linkedin.com"
  if ev.httpMethod = "OPTIONS" then
    ⟨{ statusCode := 200, allowOrigin := allowOrigin,
       allowHeaders := some "Content-Type" }, st⟩
  else
    let ctOk : Bool := match ev.contentTypeHeader with
      | none => false
      | some ct => jsIncludes ct "multipart/form-data"
    if ctOk = false then
      ⟨{ statusCode := 400, allowOrigin := allowOrigin,
         errorMsg := some "Invalid Content-Type" }, st⟩
    else
      match ev.files.head? with
      | none =>
        -- `throw new Error("No files found in the request")`, caught at the boundary
        ⟨{ statusCode := 500, allowOrigin := allowOrigin,
           allowHeaders := some "Content-Type",
           errorMsg := some "Internal server error",
           details := some "No files found in the request" }, st⟩
      | some file =>
        let fileData := file.content
        let sha256Hash := sha256Hex fileData
        let exactDuplicate := lookupImage st.table sha256Hash
        let similarImages := st.table.filter (fun it => it.pHash = pHash)
        match exactDuplicate with
        | some item =>
          let updatedWebsites := jsSetAdd item.originWebsites ev.origin
          let res := reconcileUpdate st.table sha256Hash updatedWebsites
          ⟨{ statusCode := 200, allowOrigin := allowOrigin,
             message := some "File already exists",
             imageHash := some sha256Hash, pHash := some pHash,
             s3ObjectUrl := some res.2.s3ObjectUrl,
             originWebsites := some res.2.originWebsites,
             requestCount := some res.2.requestCount },
           { st with table := res.1 }⟩
        | none =>
          match similarImages.head? with
          | some similarImage =>
            let updatedWebsites := jsSetAdd similarImage.originWebsites ev.origin
            let res := reconcileUpdate st.table similarImage.imageHash updatedWebsites
            ⟨{ statusCode := 200, allowOrigin := allowOrigin,
               message := some "Similar file exists",
               imageHash := some sha256Hash, pHash := some pHash,
               s3ObjectUrl := some res.2.s3ObjectUrl,
               originWebsites := some res.2.originWebsites,
               requestCount := some res.2.requestCount },
             { st with table := res.1 }⟩
          | none =>
            let extRes := getFileExtensionFromData file.filename file.url
              file.contentType fileData urlFormat
            let s3Key := jsSlice sha256Hash 0 16 ++ extRes.1
            let putContentType :=
              if file.contentType = "application/octet-stream" then
                "image/" ++ jsSliceFrom extRes.1 1
              else file.contentType
            let bucket' := s3Put st.bucket ⟨s3Key, fileData, putContentType⟩
            -- GetObject read-back for verification, then Buffer.compare
            let isDataEqual : Bool := fileData == readBack
            let s3ObjectUrl :=
              "https://" ++ s3BucketName ++ ".s3." ++ awsRegion ++
                ".amazonaws.com/" ++ s3Key
            let record : ImageItem :=
              ⟨sha256Hash, pHash, s3ObjectUrl, now, file.filename,
               [ev.origin], 1, file.url, extRes.1, extRes.2⟩
            let table' := putItemImage st.table record
            ⟨{ statusCode := 200, allowOrigin := allowOrigin,
               allowHeaders := some "Content-Type",
               message := some "Image uploaded successfully",
               imageHash := some sha256Hash, pHash := some pHash,
               s3ObjectUrl := some s3ObjectUrl, dataMatch := some isDataEqual,
               originalFileName := some file.filename,
               originWebsites := some [ev.origin], requestCount := some 1,
               imageOriginUrl := some file.url,
               fileExtension := some extRes.1,
               extensionSource := some extRes.2 },
             ⟨table', bucket'⟩⟩

/-! ## Feedback reconciler data model

`comments` models the `COMMENT_TABLE` (composite key `ImageHash`,
`UserId`); `main` models the `ThumbsUp`/`ThumbsDown` attributes of the
`DYNAMODB_TABLE`, with DynamoDB `ADD` semantics (a missing item or
attribute counts as 0). Handlers return the list of storage commands they
issued; the post-state is the fold of those commands. -/

/-- One item of the comment table. `voteType` is the `Type` attribute. -/
structure FeedbackRecord where
  imageHash : String
  userId : String
  voteType : String
  comment : String
  timestamp : String
deriving DecidableEq

/-- The feedback aggregate of one image. -/
structure Counters where
  thumbsUp : Int
  thumbsDown : Int
deriving DecidableEq

/-- Both stores the feedback handlers touch. -/
structure FeedbackState where
  comments : List FeedbackRecord
  main : List (String × Counters)
deriving DecidableEq

/-- One DynamoDB command, mirroring the commands the source issues.
`addSingle` is the `ADD #feedbackType :inc` expression of a first vote;
`addPair` is the `ADD #newFeedbackType :inc, #oldFeedbackType :dec`
expression of a vote change — both counters in one atomic command. -/
inductive DynamoOp
  | getFeedback (imageHash userId : String)
  | putFeedback (rec : FeedbackRecord)
  | updateFeedback (imageHash userId voteType comment timestamp : String)
  | addSingle (imageHash attr : String) (delta : Int)
  | addPair (imageHash incAttr decAttr : String)
deriving DecidableEq

/-- Whether a command mutates storage. -/
def isWriteOp : DynamoOp → Bool
  | .getFeedback _ _ => false
  | _ => true

/-- `GetItem` on the comment table. -/
def lookupFeedback (t : List FeedbackRecord) (h u : String) : Option FeedbackRecord :=
  t.find? (fun r => r.imageHash = h ∧ r.userId = u)

/-- Current aggregate for an image (absent item counts 0/0). -/
def lookupCounters (m : List (String × Counters)) (h : String) : Counters :=
  ((m.find? (fun e => e.1 = h)).map (fun e => e.2)).getD ⟨0, 0⟩

/-- Store the aggregate for an image. -/
def setCounters (m : List (String × Counters)) (h : String) (c : Counters) :
    List (String × Counters) :=
  (h, c) :: m.filter (fun e => e.1 ≠ h)

/-- `PutItem` on the comment table: overwrite by composite key. -/
def putFeedbackRec (t : List FeedbackRecord) (r : FeedbackRecord) :
    List FeedbackRecord :=
  r :: t.filter (fun x => ¬ (x.imageHash = r.imageHash ∧ x.userId = r.userId))

/-- The `SET #type, #comment, #timestamp` `UpdateItem` on the comment
table; DynamoDB creates the item when the key is missing. -/
def updateFeedbackRec (t : List FeedbackRecord) (h u ty c ts : String) :
    List FeedbackRecord :=
  match lookupFeedback t h u with
  | some old => putFeedbackRec t { old with voteType := ty, comment := c, timestamp := ts }
  | none => putFeedbackRec t ⟨h, u, ty, c, ts⟩

/-- `feedbackType === "up" ? "ThumbsUp" : "ThumbsDown"`. -/
def attrOfVote (t : String) : String := if t = "up" then "ThumbsUp" else "ThumbsDown"

/-- `ADD` one named counter attribute. -/
def addToCounter (c : Counters) (attr : String) (d : Int) : Counters :=
  if attr = "ThumbsUp" then { c with thumbsUp := c.thumbsUp + d }
  else if attr = "ThumbsDown" then { c with thumbsDown := c.thumbsDown + d }
  else c

/-- DynamoDB semantics of one command. -/
def applyOp (st : FeedbackState) : DynamoOp → FeedbackState
  | .getFeedback _ _ => st
  | .putFeedback r => { st with comments := putFeedbackRec st.comments r }
  | .updateFeedback h u ty c ts =>
    { st with comments := updateFeedbackRec st.comments h u ty c ts }
  | .addSingle h attr d =>
    { st with main := setCounters st.main h (addToCounter (lookupCounters st.main h) attr d) }
  | .addPair h incAttr decAttr =>
    let c := addToCounter (addToCounter (lookupCounters st.main h) incAttr 1) decAttr (-1)
    { st with main := setCounters st.main h c }

/-- Run a command list in order. -/
def runOps (st : FeedbackState) (ops : List DynamoOp) : FeedbackState :=
  ops.foldl applyOp st

/-- Response of a feedback handler, plus the commands it issued. -/
structure FeedbackResult where
  statusCode : Nat
  message : Option String := none
  errorMsg : Option String := none
  imageHash : Option String := none
  userId : Option String := none
  feedbackType : Option String := none
  previousFeedback : Option String := none
  ops : List DynamoOp := []
deriving DecidableEq

/-- The body of the feedback flow, identical in `handleImageFeedback.js`
and the part_001 variant: read the existing record for
(`imageHash`, `userId`), then no-op / in-place update with a paired
counter adjustment / fresh insert with a single counter increment. -/
def feedbackCore (st : FeedbackState) (imageHash userId feedbackType : String)
    (comment : Option String) (now : String) : FeedbackResult :=
  let getOp := DynamoOp.getFeedback imageHash userId
  match lookupFeedback st.comments imageHash userId with
  | some existing =>
    if existing.voteType = feedbackType then
      { statusCode := 200, message := some "Feedback already received",
        imageHash := some imageHash, userId := some userId,
        feedbackType := some feedbackType, ops := [getOp] }
    else
      { statusCode := 200, message := some "Feedback updated successfully",
        imageHash := some imageHash, userId := some userId,
        feedbackType := some feedbackType,
        previousFeedback := some existing.voteType,
        ops := [getOp,
          .updateFeedback imageHash userId feedbackType (comment.getD "") now,
          .addPair imageHash (attrOfVote feedbackType) (attrOfVote existing.voteType)] }
  | none =>
    { statusCode := 200, message := some "Feedback submitted successfully",
      imageHash := some imageHash, userId := some userId,
      feedbackType := some feedbackType,
      ops := [getOp,
        .putFeedback ⟨imageHash, userId, feedbackType, comment.getD "", now⟩,
        .addSingle imageHash (attrOfVote feedbackType) 1] }

/-! ## Origin resolution and token decoding of the feedback handlers -/

/-- The allow-list of the feedback handlers. -/
def allowedOriginsFeedback : List String :=
  ["https://www.linkedin.com", "https://www.facebook.com",
   "https://www.twitter.com", "https://www.x.com",
   "https://www.instagram.com", "https://www.reddit.com",
   "https://realeyes.ai", "https://api.realeyes.ai"]

/-- A JS truthiness filter on strings: `undefined` and `""` are falsy. -/
def jsTruthy (o : Option String) : Option String :=
  match o with
  | some s => if s = "" then none else some s
  | none => none

/-- The coalesced headers a feedback handler reads (each field is already
`headers["x"] || headers["X"]`). -/
structure FeedbackHeaders where
  xOrigin : Option String
  origin : Option String
  referer : Option String
  authorization : Option String
deriving DecidableEq

/-- `getValidOrigin`: x-origin header (via `new URL(...).origin`, modelled
by `urlOriginOf`), then the origin header, then a referer prefix match;
`none` when nothing matches. -/
def getValidOrigin (urlOriginOf : String → String) (h : FeedbackHeaders) :
    Option String :=
  let fromX : Option String :=
    match jsTruthy h.xOrigin with
    | some x =>
      let xd := urlOriginOf x
      if xd ∈ allowedOriginsFeedback then some xd else none
    | none => none
  match fromX with
  | some r => some r
  | none =>
    match jsTruthy h.origin with
    | some o =>
      if o ∈ allowedOriginsFeedback then some o
      else
        match jsTruthy h.referer with
        | some r => allowedOriginsFeedback.find? (fun a => jsStartsWith r a)
        | none => none
    | none =>
      match jsTruthy h.referer with
      | some r => allowedOriginsFeedback.find? (fun a => jsStartsWith r a)
      | none => none

/-- `allowedOrigins.includes(origin) ? origin : allowedOrigins[0]`. -/
def resolveAllowOrigin (gvo : Option String) : String :=
  match gvo with
  | some o => if o ∈ allowedOriginsFeedback then o else "https://www.linkedin.com"
  | none => "https://www.linkedin.com"

/-- The base64 alphabet (Node also accepts the url-safe variant). -/
def base64Val (c : Char) : Option Nat :=
  if 'A' ≤ c ∧ c ≤ 'Z' then some (c.toNat - 65)
  else if 'a' ≤ c ∧ c ≤ 'z' then some (c.toNat - 97 + 26)
  else if '0' ≤ c ∧ c ≤ '9' then some (c.toNat - 48 + 52)
  else if c = '+' ∨ c = '-' then some 62
  else if c = '/' ∨ c = '_' then some 63
  else none

/-- Reassemble bytes from 6-bit groups, dropping a dangling group as Node
does. -/
def b64Group : List Nat → List Nat
  | a :: b :: c :: d :: rest =>
    (a * 4 + b / 16) :: ((b % 16) * 16 + c / 4) :: ((c % 4) * 64 + d) :: b64Group rest
  | [a, b] => [a * 4 + b / 16]
  | [a, b, c] => [a * 4 + b / 16, (b % 16) * 16 + c / 4]
  | _ => []

/-- `Buffer.from(str, "base64")`: lenient — characters outside the
alphabet (including `=`) are skipped, never an exception. -/
def base64DecodeBytes (l : List Char) : List Nat :=
  b64Group (l.filterMap base64Val)

/-- `extractUserId` of `handleImageFeedback.js`: take the second
space-separated chunk of the header, base64-decode the second dot-separated
segment of it, and hand the bytes to `parsePayload`, which stands for
`JSON.parse(decoded).username || null` (returning `none` both when parsing
throws and when `username` is falsy). Any failure yields `none`; the
signature segment is never inspected. -/
def extractUserId (parsePayload : List Nat → Option String)
    (authHeader : Option String) : Option String :=
  match authHeader with
  | none => none
  | some h =>
    if h = "" then none
    else if jsStartsWith h "Bearer " = false then none
    else
      let token := (splitOnChar ' ' h.toList).getD 1 []
      match (splitOnChar '.' token).get? 1 with
      | none => none
      | some seg => parsePayload (base64DecodeBytes seg)

/-! ## The three feedback handler variants -/

/-- A parsed feedback request body. The embedding covers events whose body
`JSON.parse` accepts; a malformed body escapes the part_001 handler as an
uncaught exception before any of the behaviour claimed here. -/
structure FeedbackBody where
  imageHash : String
  feedbackType : String
  comment : Option String
  userId : Option String
deriving DecidableEq

/-- A feedback HTTP event. -/
structure FeedbackEvent where
  httpMethod : String
  headers : FeedbackHeaders
  body : FeedbackBody
deriving DecidableEq

/-- Response, post-state and the CORS headers attached to the response. -/
structure FeedbackOutcome where
  result : FeedbackResult
  state : FeedbackState
  allowOrigin : String
  allowHeaders : String
deriving DecidableEq

/-- The token-authenticated handler of `handleImageFeedback.js`:
OPTIONS is answered first; a request whose token does not resolve is
rejected with 401; then the vote type is validated and the shared core
runs. -/
def handlerFeedbackAuth (urlOriginOf : String → String)
    (parsePayload : List Nat → Option String) (ev : FeedbackEvent)
    (now : String) (st : FeedbackState) : FeedbackOutcome :=
  let allowOrigin := resolveAllowOrigin (getValidOrigin urlOriginOf ev.headers)
  let hdrs := "Content-Type, Authorization"
  if ev.httpMethod = "OPTIONS" then
    ⟨{ statusCode := 200 }, st, allowOrigin, hdrs⟩
  else
    match extractUserId parsePayload ev.headers.authorization with
    | none =>
      ⟨{ statusCode := 401,
         errorMsg := some "Valid authorization token is required" },
       st, allowOrigin, hdrs⟩
    | some userId =>
      if ev.body.feedbackType ≠ "up" ∧ ev.body.feedbackType ≠ "down" then
        ⟨{ statusCode := 400,
           errorMsg := some "Invalid feedbackType. Must be \"up\" or \"down\"." },
         st, allowOrigin, hdrs⟩
      else
        let r := feedbackCore st ev.body.imageHash userId ev.body.feedbackType
          ev.body.comment now
        ⟨r, runOps st r.ops, allowOrigin, hdrs⟩

/-- The part_001 variant: the token is tried first (`jwt-decode` performs
the same payload-segment decoding, abstracted by the same `parsePayload`
shape), the body-supplied userId is the fallback, and — notably — the
userId check runs *before* the OPTIONS branch. -/
def handlerFeedbackBody (urlOriginOf : String → String)
    (parsePayload : List Nat → Option String) (ev : FeedbackEvent)
    (now : String) (st : FeedbackState) : FeedbackOutcome :=
  let allowOrigin := resolveAllowOrigin (getValidOrigin urlOriginOf ev.headers)
  let hdrs := "Content-Type, Authorization"
  let tokenUser := extractUserId parsePayload ev.headers.authorization
  let resolved : Option String :=
    match jsTruthy tokenUser with
    | some u => some u
    | none => jsTruthy ev.body.userId
  match resolved with
  | none =>
    ⟨{ statusCode := 400,
       errorMsg := some "Unable to determine user ID. Please ensure you are authenticated or provide a user ID." },
     st, allowOrigin, hdrs⟩
  | some userId =>
    if ev.httpMethod = "OPTIONS" then
      ⟨{ statusCode := 200 }, st, allowOrigin, hdrs⟩
    else if ev.body.feedbackType ≠ "up" ∧ ev.body.feedbackType ≠ "down" then
      ⟨{ statusCode := 400,
         errorMsg := some "Invalid feedbackType. Must be \"up\" or \"down\"." },
       st, allowOrigin, hdrs⟩
    else
      let r := feedbackCore st ev.body.imageHash userId ev.body.feedbackType
        ev.body.comment now
      ⟨r, runOps st r.ops, allowOrigin, hdrs⟩

/-- The part_000 variant: body-supplied userId only, no CORS handling, a
409 when any feedback already exists, and a conditional `PutItem` (the
condition `attribute_not_exists` cannot fail in a sequential run, so the
put is modelled by the same command). -/
def handlerFeedbackSubmit (body : FeedbackBody) (now : String)
    (st : FeedbackState) : FeedbackResult × FeedbackState :=
  match jsTruthy body.userId with
  | none => ({ statusCode := 400, errorMsg := some "UserId is required" }, st)
  | some userId =>
    if body.feedbackType ≠ "up" ∧ body.feedbackType ≠ "down" then
      ({ statusCode := 400,
         errorMsg := some "Invalid feedbackType. Must be \"up\" or \"down\"." }, st)
    else
      match lookupFeedback st.comments body.imageHash userId with
      | some _ =>
        ({ statusCode := 409,
           errorMsg := some "User has already submitted feedback for this image",
           ops := [.getFeedback body.imageHash userId] }, st)
      | none =>
        let r : FeedbackResult :=
          { statusCode := 200, message := some "Feedback submitted successfully",
            imageHash := some body.imageHash, userId := some userId,
            feedbackType := some body.feedbackType,
            ops := [.getFeedback body.imageHash userId,
              .putFeedback ⟨body.imageHash, userId, body.feedbackType,
                (body.comment).getD "", now⟩,
              .addSingle body.imageHash (attrOfVote body.feedbackType) 1] }
        (r, runOps st r.ops)

/-! ## Aggregate invariant definitions -/

/-- Number of distinct users holding a feedback record for an image
(distinct because keys of the comment table are unique). -/
def votersFor (st : FeedbackState) (h : String) : Nat :=
  (st.comments.filter (fun r => r.imageHash = h)).length

/-- `thumbsUp + thumbsDown` of an image's aggregate. -/
def sumFor (st : FeedbackState) (h : String) : Int :=
  (lookupCounters st.main h).thumbsUp + (lookupCounters st.main h).thumbsDown

/-- At most one feedback record per (imageHash, userId) pair. -/
def keysUnique (t : List FeedbackRecord) : Prop :=
  List.Pairwise (fun a b => ¬ (a.imageHash = b.imageHash ∧ a.userId = b.userId)) t

/-- The feedback aggregate invariant: unique per-user records, and each
image's counter sum equals its number of voters. -/
def FeedbackInv (st : FeedbackState) : Prop :=
  keysUnique st.comments ∧ ∀ h, sumFor st h = votersFor st h

/-! ## Store lemmas -/

theorem lookupImage_putItemImage_self (t : List ImageItem) (i : ImageItem) :
    lookupImage (putItemImage t i) i.imageHash = some i := by
  simp [lookupImage, putItemImage]

theorem lookupImage_putItemImage (t : List ImageItem) (i : ImageItem) (h : String)
    (hh : i.imageHash = h) : lookupImage (putItemImage t i) h = some i := by
  subst hh
  exact lookupImage_putItemImage_self t i

theorem isSome_lookupImage_putItemImage (t : List ImageItem) (i : ImageItem)
    (h : String) (hh : i.imageHash = h) :
    (lookupImage (putItemImage t i) h).isSome = true := by
  rw [lookupImage_putItemImage t i h hh]
  rfl

theorem lookupImage_key (t : List ImageItem) (h : String) (cur : ImageItem)
    (hc : lookupImage t h = some cur) : cur.imageHash = h := by
  have := List.find?_some hc
  simpa using this

theorem mem_putItemImage (t : List ImageItem) (i j : ImageItem) :
    j ∈ putItemImage t i ↔ j = i ∨ (j ∈ t ∧ j.imageHash ≠ i.imageHash) := by
  simp [putItemImage, List.mem_filter]

/-! ## Claims C1 – C4: the ingestion pipeline -/

/-- C1 (counterexample). The claim says a read-back mismatch after the
blob write fails the ingestion with an internal error and writes no
record. On a concrete new upload whose read-back bytes differ from the
uploaded bytes, the handler returns HTTP 200 with `dataMatch: false`,
reports success, and the `ImageRecord` is written. -/
theorem c1_verify_mismatch_counterexample :
    (let out := handlerIngest
        ⟨"POST", "https://realeyes.ai", some "multipart/form-data; boundary=b",
          [⟨[1, 2, 3], "a.jpg", "image/jpeg", ""⟩]⟩ "ph0" none "t0" [9, 9] ⟨[], []⟩
     out.response.statusCode = 200 ∧
       out.response.message = some "Image uploaded successfully" ∧
       out.response.dataMatch = some false ∧
       (lookupImage out.state.table (sha256Hex [1, 2, 3])).isSome = true) := by
  decide

/-- C1 (amended). The pipeline does read the object back and compare, but
the comparison only feeds the `dataMatch` field of the response: on any
new upload whose read-back differs from the uploaded buffer, the handler
still returns 200 with a success message (`dataMatch` set to `false`) and
still writes the `ImageRecord`; no `IntegrityError` path exists. -/
theorem c1_verify_mismatch_reported_only (ev : IngestEvent) (pHash : String)
    (urlFormat : Option String) (now : String) (readBack : List Nat)
    (st : PipelineState) (file : MultipartFile) (ct : String)
    (hm : ev.httpMethod ≠ "OPTIONS")
    (hct : ev.contentTypeHeader = some ct)
    (hmp : jsIncludes ct "multipart/form-data" = true)
    (hf : ev.files.head? = some file)
    (hex : lookupImage st.table (sha256Hex file.content) = none)
    (hsim : st.table.filter (fun it => it.pHash = pHash) = [])
    (hrb : file.content ≠ readBack) :
    (handlerIngest ev pHash urlFormat now readBack st).response.statusCode = 200 ∧
    (handlerIngest ev pHash urlFormat now readBack st).response.message =
      some "Image uploaded successfully" ∧
    (handlerIngest ev pHash urlFormat now readBack st).response.dataMatch = some false ∧
    (lookupImage (handlerIngest ev pHash urlFormat now readBack st).state.table
      (sha256Hex file.content)).isSome = true := by
  have hbeq : (file.content == readBack) = false := by
    simpa using hrb
  simp only [handlerIngest, hct, hmp, hf, hex, hsim, if_neg hm]
  refine ⟨by simp, by simp, by simp [hbeq], ?_⟩
  simp
  apply isSome_lookupImage_putItemImage
  rfl

/-- C1 (witness). -/
theorem c1_verify_mismatch_reported_only_witness :
    (handlerIngest ⟨"POST", "https://realeyes.ai", some "multipart/form-data; boundary=b",
        [⟨[1, 2, 3], "a.jpg", "image/jpeg", ""⟩]⟩ "ph1" none "t1" [7] ⟨[], []⟩).response.statusCode
        = 200 ∧
    (handlerIngest ⟨"POST", "https://realeyes.ai", some "multipart/form-data; boundary=b",
        [⟨[1, 2, 3], "a.jpg", "image/jpeg", ""⟩]⟩ "ph1" none "t1" [7] ⟨[], []⟩).response.message =
      some "Image uploaded successfully" ∧
    (handlerIngest ⟨"POST", "https://realeyes.ai", some "multipart/form-data; boundary=b",
        [⟨[1, 2, 3], "a.jpg", "image/jpeg", ""⟩]⟩ "ph1" none "t1" [7] ⟨[], []⟩).response.dataMatch
        = some false ∧
    (lookupImage (handlerIngest ⟨"POST", "https://realeyes.ai",
        some "multipart/form-data; boundary=b",
        [⟨[1, 2, 3], "a.jpg", "image/jpeg", ""⟩]⟩ "ph1" none "t1" [7] ⟨[], []⟩).state.table
      (sha256Hex [1, 2, 3])).isSome = true :=
  c1_verify_mismatch_reported_only
    ⟨"POST", "https://realeyes.ai", some "multipart/form-data; boundary=b",
      [⟨[1, 2, 3], "a.jpg", "image/jpeg", ""⟩]⟩ "ph1" none "t1" [7] ⟨[], []⟩
    ⟨[1, 2, 3], "a.jpg", "image/jpeg", ""⟩ "multipart/form-data; boundary=b"
    (by decide) rfl (by decide) rfl rfl rfl (by decide)

/-- C2 (counterexample). The claim says the record creation is conditioned
on non-existence and that a losing race falls back to `RECONCILE_EXISTING`.
Concretely: after a winner's record (requestCount 5) is in the table, the
loser's `WRITE_RECORD` put succeeds anyway and replaces it with a fresh
record (requestCount 1, the winner's origin gone) — neither a condition
failure nor a reconciliation. -/
theorem c2_unconditional_write_counterexample :
    (let winner : ImageItem :=
        ⟨"h", "p", "u", "d", "f", ["https://realeyes.ai"], 5, "", ".jpg", "filename"⟩
     let loser : ImageItem :=
        ⟨"h", "p", "u", "d", "f", ["https://www.reddit.com"], 1, "", ".jpg", "filename"⟩
     let t := putItemImage [winner] loser
     lookupImage t "h" = some loser ∧ loser.requestCount = 1 ∧
       ("https://realeyes.ai" ∈ loser.originWebsites) = False) := by
  decide

/-- C2 (amended). `WRITE_RECORD` is an unconditional `PutItem`: even when
a record with the same `contentHash` is present, the put succeeds and the
new item replaces it wholesale (the displaced record is gone, other
records survive); no condition is checked and no `RECONCILE_EXISTING`
fallback exists for a lost race. -/
theorem c2_put_overwrites (t : List ImageItem) (i cur j : ImageItem)
    (hcur : lookupImage t i.imageHash = some cur)
    (hj : j.imageHash ≠ i.imageHash) :
    lookupImage (putItemImage t i) i.imageHash = some i ∧
    (cur ≠ i → cur ∉ putItemImage t i) ∧
    (j ∈ putItemImage t i ↔ j ∈ t) := by
  have hkey : cur.imageHash = i.imageHash := lookupImage_key t i.imageHash cur hcur
  refine ⟨lookupImage_putItemImage_self t i, ?_, ?_⟩
  · intro hne hmem
    rcases (mem_putItemImage t i cur).1 hmem with h | h
    · exact hne h
    · exact h.2 hkey
  · constructor
    · intro hmem
      rcases (mem_putItemImage t i j).1 hmem with h | h
      · exact absurd (congrArg ImageItem.imageHash h) hj
      · exact h.1
    · intro hmem
      exact (mem_putItemImage t i j).2 (Or.inr ⟨hmem, hj⟩)

/-- C2 (witness). -/
theorem c2_put_overwrites_witness :
    (let winner : ImageItem :=
        ⟨"h", "p", "u", "d", "f", ["https://realeyes.ai"], 5, "", ".jpg", "filename"⟩
     let loser : ImageItem :=
        ⟨"h", "p", "u", "d", "f", ["https://www.reddit.com"], 1, "", ".jpg", "filename"⟩
     let other : ImageItem :=
        ⟨"h2", "p2", "u2", "d2", "f2", [], 1, "", ".png", "filename"⟩
     lookupImage (putItemImage [winner, other] loser) loser.imageHash = some loser ∧
       (winner ≠ loser → winner ∉ putItemImage [winner, other] loser) ∧
       (other ∈ putItemImage [winner, other] loser ↔ other ∈ [winner, other])) :=
  c2_put_overwrites [⟨"h", "p", "u", "d", "f", ["https://realeyes.ai"], 5, "", ".jpg", "filename"⟩,
      ⟨"h2", "p2", "u2", "d2", "f2", [], 1, "", ".png", "filename"⟩]
    ⟨"h", "p", "u", "d", "f", ["https://www.reddit.com"], 1, "", ".jpg", "filename"⟩
    ⟨"h", "p", "u", "d", "f", ["https://realeyes.ai"], 5, "", ".jpg", "filename"⟩
    ⟨"h2", "p2", "u2", "d2", "f2", [], 1, "", ".png", "filename"⟩
    (by decide) (by decide)

/-- C3 (counterexample). Two reconciliations that both read the same
snapshot (origins `["https://realeyes.ai"]`) and then run in sequence: the
second `SET originWebsites = :websites` overwrites the first, losing
`https://www.reddit.com`, while the in-expression counter increment
survives twice — the set mutation is a read-modify-write, not an atomic
add-to-set. -/
theorem c3_lost_update_counterexample :
    (let item0 : ImageItem := ⟨"h", "p", "u", "d", "f", ["https://realeyes.ai"], 1, "", "", ""⟩
     let w1 := jsSetAdd item0.originWebsites "https://www.reddit.com"
     let w2 := jsSetAdd item0.originWebsites "https://www.x.com"
     let t1 := (reconcileUpdate [item0] "h" w1).1
     let t2 := (reconcileUpdate t1 "h" w2).1
     (lookupImage t2 "h").map ImageItem.originWebsites =
        some ["https://realeyes.ai", "https://www.x.com"] ∧
       (lookupImage t2 "h").map ImageItem.requestCount = some 3 ∧
       (∀ it, lookupImage t2 "h" = some it →
         ("https://www.reddit.com" ∈ it.originWebsites) = False)) := by
  decide

/-- C3 (amended). In `RECONCILE_EXISTING`, only `requestCount` is mutated
atomically against the stored item; `originWebsites` is written as a
literal computed in application code from the snapshot read earlier, so
any origin that a concurrent request added after that read (present in
the current item but not derivable from the snapshot) is erased. -/
theorem c3_reconcile_is_read_modify_write (t : List ImageItem)
    (key origin : String) (snapshot cur : ImageItem)
    (hcur : lookupImage t key = some cur) :
    ((reconcileUpdate t key (jsSetAdd snapshot.originWebsites origin)).2).requestCount
      = cur.requestCount + 1 ∧
    ((reconcileUpdate t key (jsSetAdd snapshot.originWebsites origin)).2).originWebsites
      = jsSetAdd snapshot.originWebsites origin ∧
    (∀ x, x ∈ cur.originWebsites → x ∉ snapshot.originWebsites → x ≠ origin →
      x ∉ ((reconcileUpdate t key (jsSetAdd snapshot.originWebsites origin)).2).originWebsites) := by
  refine ⟨?_, ?_, ?_⟩
  · simp [reconcileUpdate, hcur]
  · simp [reconcileUpdate, hcur]
  · intro x _ hxs hxo hmem
    simp only [reconcileUpdate, hcur] at hmem
    simp only [jsSetAdd] at hmem
    by_cases hin : origin ∈ snapshot.originWebsites
    · rw [if_pos hin] at hmem
      exact hxs hmem
    · rw [if_neg hin] at hmem
      rcases List.mem_append.1 hmem with h | h
      · exact hxs h
      · exact hxo (List.mem_singleton.1 h)

/-- C3 (witness). -/
theorem c3_reconcile_is_read_modify_write_witness :
    (let item0 : ImageItem := ⟨"h", "p", "u", "d", "f", ["https://realeyes.ai"], 1, "", "", ""⟩
     let cur : ImageItem :=
        ⟨"h", "p", "u", "d", "f", ["https://realeyes.ai", "https://www.reddit.com"], 2, "", "", ""⟩
     let w := jsSetAdd item0.originWebsites "https://www.x.com"
     ((reconcileUpdate [cur] "h" w).2).requestCount = cur.requestCount + 1 ∧
       ((reconcileUpdate [cur] "h" w).2).originWebsites = w ∧
       (∀ x, x ∈ cur.originWebsites → x ∉ item0.originWebsites → x ≠ "https://www.x.com" →
         x ∉ ((reconcileUpdate [cur] "h" w).2).originWebsites)) :=
  c3_reconcile_is_read_modify_write
    [⟨"h", "p", "u", "d", "f", ["https://realeyes.ai", "https://www.reddit.com"], 2, "", "", ""⟩]
    "h" "https://www.x.com"
    ⟨"h", "p", "u", "d", "f", ["https://realeyes.ai"], 1, "", "", ""⟩
    ⟨"h", "p", "u", "d", "f", ["https://realeyes.ai", "https://www.reddit.com"], 2, "", "", ""⟩
    (by decide)

/-- C4. Exact-hash matching takes precedence: whenever a record with the
computed `contentHash` exists, the response is the duplicate one ("File
already exists"), whatever the perceptual-hash query returned; the
similar classification ("Similar file exists") is reachable only when the
exact lookup found nothing; and in both branches the blob store is left
untouched. -/
theorem c4_exact_precedence (ev : IngestEvent) (pHash : String)
    (urlFormat : Option String) (now : String) (readBack : List Nat)
    (st : PipelineState) (file : MultipartFile) (ct : String)
    (hm : ev.httpMethod ≠ "OPTIONS")
    (hct : ev.contentTypeHeader = some ct)
    (hmp : jsIncludes ct "multipart/form-data" = true)
    (hf : ev.files.head? = some file) :
    (∀ item, lookupImage st.table (sha256Hex file.content) = some item →
      (handlerIngest ev pHash urlFormat now readBack st).response.message =
        some "File already exists" ∧
      (handlerIngest ev pHash urlFormat now readBack st).state.bucket = st.bucket) ∧
    (lookupImage st.table (sha256Hex file.content) = none →
      ∀ sim, (st.table.filter (fun it => it.pHash = pHash)).head? = some sim →
      (handlerIngest ev pHash urlFormat now readBack st).response.message =
        some "Similar file exists" ∧
      (handlerIngest ev pHash urlFormat now readBack st).state.bucket = st.bucket) := by
  constructor
  · intro item hitem
    simp only [handlerIngest, hct, hmp, hf, hitem, if_neg hm]
    exact ⟨by simp, by simp⟩
  · intro hnone sim hsim
    simp only [handlerIngest, hct, hmp, hf, hnone, hsim, if_neg hm]
    exact ⟨by simp, by simp⟩

/-- C4 (witness). A table holding exactly the record of the uploaded bytes
(and whose perceptual hash also matches, showing the similar query result
is ignored). -/
theorem c4_exact_precedence_witness :
    (let rec0 : ImageItem :=
        ⟨sha256Hex [1, 2, 3], "ph2", "u", "d", "f", ["https://realeyes.ai"], 1, "", ".jpg", "filename"⟩
     let st : PipelineState := ⟨[rec0], []⟩
     let ev : IngestEvent := ⟨"POST", "https://www.reddit.com",
        some "multipart/form-data; boundary=b", [⟨[1, 2, 3], "a.jpg", "image/jpeg", ""⟩]⟩
     (handlerIngest ev "ph2" none "t2" [1, 2, 3] st).response.message =
        some "File already exists" ∧
       (handlerIngest ev "ph2" none "t2" [1, 2, 3] st).state.bucket = st.bucket) :=
  (c4_exact_precedence
    ⟨"POST", "https://www.reddit.com", some "multipart/form-data; boundary=b",
      [⟨[1, 2, 3], "a.jpg", "image/jpeg", ""⟩]⟩ "ph2" none "t2" [1, 2, 3]
    ⟨[⟨sha256Hex [1, 2, 3], "ph2", "u", "d", "f", ["https://realeyes.ai"], 1, "", ".jpg", "filename"⟩], []⟩
    ⟨[1, 2, 3], "a.jpg", "image/jpeg", ""⟩ "multipart/form-data; boundary=b"
    (by decide) rfl (by decide) rfl).1
    ⟨sha256Hex [1, 2, 3], "ph2", "u", "d", "f", ["https://realeyes.ai"], 1, "", ".jpg", "filename"⟩
    (by decide)

/-! ## Feedback store lemmas -/

theorem lookupFeedback_key (t : List FeedbackRecord) (h u : String)
    (r : FeedbackRecord) (hr : lookupFeedback t h u = some r) :
    r.imageHash = h ∧ r.userId = u := by
  have := List.find?_some hr
  simpa using this

theorem lookupFeedback_putFeedbackRec_self (t : List FeedbackRecord)
    (r : FeedbackRecord) :
    lookupFeedback (putFeedbackRec t r) r.imageHash r.userId = some r := by
  simp [lookupFeedback, putFeedbackRec]

theorem lookupFeedback_putFeedbackRec (t : List FeedbackRecord)
    (r : FeedbackRecord) (h u : String) (hh : r.imageHash = h) (hu : r.userId = u) :
    lookupFeedback (putFeedbackRec t r) h u = some r := by
  subst hh; subst hu
  exact lookupFeedback_putFeedbackRec_self t r

theorem putFeedbackRec_of_absent (t : List FeedbackRecord) (r : FeedbackRecord)
    (habs : lookupFeedback t r.imageHash r.userId = none) :
    putFeedbackRec t r = r :: t := by
  have hall := List.find?_eq_none.1 habs
  unfold putFeedbackRec
  congr 1
  apply List.filter_eq_self.2
  intro x hx
  have h2 := hall x hx
  simp at h2 ⊢
  tauto

theorem lookupCounters_setCounters_self (m : List (String × Counters))
    (h : String) (c : Counters) : lookupCounters (setCounters m h c) h = c := by
  simp [lookupCounters, setCounters]

theorem find?_filter_of_imp {α : Type} (l : List α) (p q : α → Bool)
    (himp : ∀ x, p x = true → q x = true) :
    (l.filter q).find? p = l.find? p := by
  induction l with
  | nil => rfl
  | cons a t ih =>
    by_cases hq : q a = true
    · by_cases hp : p a = true
      · simp [List.filter_cons, hq, List.find?_cons, hp]
      · have hp' : p a = false := by simpa using hp
        simp [List.filter_cons, hq, List.find?_cons, hp', ih]
    · have hq' : q a = false := by simpa using hq
      have hp' : p a = false := by
        cases hpa : p a
        · rfl
        · exact absurd (himp a hpa) hq
      simp [List.filter_cons, hq', List.find?_cons, hp', ih]

theorem lookupCounters_setCounters_ne (m : List (String × Counters))
    (h g : String) (c : Counters) (hne : g ≠ h) :
    lookupCounters (setCounters m h c) g = lookupCounters m g := by
  unfold lookupCounters setCounters
  rw [List.find?_cons]
  have hhead : (decide ((h, c).1 = g)) = false := by
    simp
    exact fun hh => hne hh.symm
  rw [hhead]
  rw [find?_filter_of_imp]
  intro x hx
  have hxg : x.1 = g := by simpa using hx
  simp [hxg, hne]

theorem keysUnique_putFeedbackRec (t : List FeedbackRecord) (r : FeedbackRecord)
    (hp : keysUnique t) : keysUnique (putFeedbackRec t r) := by
  unfold keysUnique putFeedbackRec
  refine List.Pairwise.cons ?_ (List.Pairwise.filter _ hp)
  intro x hx hcontra
  have hxq := List.of_mem_filter hx
  simp at hxq
  rcases hxq with hq | hq
  · exact hq hcontra.1.symm
  · exact hq hcontra.2.symm

/-- Replacing the unique record of a (imageHash, userId) key by another
record with the same key leaves every image's voter count unchanged. -/
theorem votersFilter_putFeedbackRec_present (t : List FeedbackRecord)
    (old upd : FeedbackRecord) (hp : keysUnique t)
    (hold : lookupFeedback t old.imageHash old.userId = some old)
    (hk1 : upd.imageHash = old.imageHash) (hk2 : upd.userId = old.userId)
    (g : String) :
    ((putFeedbackRec t upd).filter (fun r => r.imageHash = g)).length =
      (t.filter (fun r => r.imageHash = g)).length := by
  induction t with
  | nil => simp [lookupFeedback] at hold
  | cons a t' ih =>
    have hp' : keysUnique t' := List.Pairwise.of_cons hp
    have hhead : ∀ b ∈ t', ¬ (a.imageHash = b.imageHash ∧ a.userId = b.userId) :=
      fun b hb => List.rel_of_pairwise_cons hp hb
    by_cases hpa : (a.imageHash = old.imageHash ∧ a.userId = old.userId)
    · -- `a` is the stored record being replaced; the tail is untouched
      have ha : a = old := by
        have h1 : lookupFeedback (a :: t') old.imageHash old.userId = some a := by
          unfold lookupFeedback
          exact List.find?_cons_of_pos _ (by simpa using hpa)
        exact Option.some_inj.1 (h1.symm.trans hold)
      have hqa : (decide ¬ (a.imageHash = upd.imageHash ∧ a.userId = upd.userId)) = false := by
        simp [hk1, hk2, hpa.1, hpa.2]
      have hqt' : t'.filter
          (fun x => ¬ (x.imageHash = upd.imageHash ∧ x.userId = upd.userId)) = t' := by
        apply List.filter_eq_self.2
        intro x hx
        have hx2 := hhead x hx
        simp [hk1, hk2] at hx2 ⊢
        by_cases h1 : x.imageHash = old.imageHash
        · right
          intro h2
          exact hx2 (hpa.1.trans h1.symm) (hpa.2.trans h2.symm)
        · left
          exact h1
      have hfa : (a :: t').filter
          (fun x => ¬ (x.imageHash = upd.imageHash ∧ x.userId = upd.userId)) = t' := by
        rw [List.filter_cons, hqa]
        simpa using hqt'
      have hupda : upd.imageHash = a.imageHash := by rw [hk1, ha]
      simp only [putFeedbackRec]
      rw [hfa]
      by_cases hg : a.imageHash = g
      · simp [List.filter_cons, hupda, hg]
      · simp [List.filter_cons, hupda, hg]
    · have hold' : lookupFeedback t' old.imageHash old.userId = some old := by
        unfold lookupFeedback at hold ⊢
        rwa [List.find?_cons_of_neg _ (by simpa using hpa)] at hold
      have hqa : (decide ¬ (a.imageHash = upd.imageHash ∧ a.userId = upd.userId)) = true := by
        simp [hk1, hk2]
        tauto
      have hfa : (a :: t').filter
          (fun x => ¬ (x.imageHash = upd.imageHash ∧ x.userId = upd.userId)) =
          a :: t'.filter
            (fun x => ¬ (x.imageHash = upd.imageHash ∧ x.userId = upd.userId)) := by
        rw [List.filter_cons, hqa]
        simp
      have IH := ih hp' hold'
      simp only [putFeedbackRec] at IH ⊢
      rw [hfa]
      by_cases hpu : upd.imageHash = g <;> by_cases hg : a.imageHash = g <;>
        simp [List.filter_cons, hpu, hg] at IH ⊢ <;> omega

/-! ## Claims C5 – C7: the feedback reconciler -/

/-- C5. When a feedback record for (imageHash, userId) already holds the
submitted vote type, the core issues no write command and the state is
unchanged, reporting "Feedback already received"; in particular, voting
"up" twice from a state with no prior record leaves `thumbsUp` incremented
exactly once, the second call being a no-op. -/
theorem c5_same_vote_noop (st : FeedbackState) (h u ty : String)
    (c : Option String) (now : String) (existing : FeedbackRecord)
    (hex : lookupFeedback st.comments h u = some existing)
    (hsame : existing.voteType = ty) :
    ((feedbackCore st h u ty c now).message = some "Feedback already received" ∧
     (feedbackCore st h u ty c now).ops.filter isWriteOp = [] ∧
     runOps st (feedbackCore st h u ty c now).ops = st) ∧
    (∀ st0 h0 u0 c0 now0 c1 now1,
      lookupFeedback st0.comments h0 u0 = none →
      (lookupCounters (runOps st0 (feedbackCore st0 h0 u0 "up" c0 now0).ops).main h0).thumbsUp
        = (lookupCounters st0.main h0).thumbsUp + 1 ∧
      (feedbackCore (runOps st0 (feedbackCore st0 h0 u0 "up" c0 now0).ops) h0 u0 "up" c1 now1).message
        = some "Feedback already received" ∧
      runOps (runOps st0 (feedbackCore st0 h0 u0 "up" c0 now0).ops)
          (feedbackCore (runOps st0 (feedbackCore st0 h0 u0 "up" c0 now0).ops) h0 u0 "up" c1 now1).ops
        = runOps st0 (feedbackCore st0 h0 u0 "up" c0 now0).ops) := by
  constructor
  · refine ⟨?_, ?_, ?_⟩
    · simp [feedbackCore, hex, hsame]
    · simp [feedbackCore, hex, hsame, isWriteOp]
    · simp [feedbackCore, hex, hsame, runOps, applyOp]
  · intro st0 h0 u0 c0 now0 c1 now1 habs
    have hops1 : (feedbackCore st0 h0 u0 "up" c0 now0).ops =
        [DynamoOp.getFeedback h0 u0,
         DynamoOp.putFeedback ⟨h0, u0, "up", c0.getD "", now0⟩,
         DynamoOp.addSingle h0 "ThumbsUp" 1] := by
      simp [feedbackCore, habs, attrOfVote]
    have hst1 : runOps st0 (feedbackCore st0 h0 u0 "up" c0 now0).ops =
        ⟨putFeedbackRec st0.comments ⟨h0, u0, "up", c0.getD "", now0⟩,
         setCounters st0.main h0
           (addToCounter (lookupCounters st0.main h0) "ThumbsUp" 1)⟩ := by
      rw [hops1]
      simp [runOps, applyOp]
    have hlk : lookupFeedback
        (runOps st0 (feedbackCore st0 h0 u0 "up" c0 now0).ops).comments h0 u0 =
        some ⟨h0, u0, "up", c0.getD "", now0⟩ := by
      rw [hst1]
      exact lookupFeedback_putFeedbackRec _ _ _ _ rfl rfl
    set st1 := runOps st0 (feedbackCore st0 h0 u0 "up" c0 now0).ops with hst1def
    refine ⟨?_, ?_, ?_⟩
    · rw [hst1]
      rw [lookupCounters_setCounters_self]
      simp [addToCounter]
    · simp [feedbackCore, hlk]
    · simp [feedbackCore, hlk, runOps, applyOp]

/-- C5 (witness). -/
theorem c5_same_vote_noop_witness :
    (let st : FeedbackState := ⟨[⟨"h1", "u1", "up", "", "t1"⟩], [("h1", ⟨1, 0⟩)]⟩
     ((feedbackCore st "h1" "u1" "up" none "t2").message =
        some "Feedback already received" ∧
      (feedbackCore st "h1" "u1" "up" none "t2").ops.filter isWriteOp = [] ∧
      runOps st (feedbackCore st "h1" "u1" "up" none "t2").ops = st) ∧
    (∀ st0 h0 u0 c0 now0 c1 now1,
      lookupFeedback st0.comments h0 u0 = none →
      (lookupCounters (runOps st0 (feedbackCore st0 h0 u0 "up" c0 now0).ops).main h0).thumbsUp
        = (lookupCounters st0.main h0).thumbsUp + 1 ∧
      (feedbackCore (runOps st0 (feedbackCore st0 h0 u0 "up" c0 now0).ops) h0 u0 "up" c1 now1).message
        = some "Feedback already received" ∧
      runOps (runOps st0 (feedbackCore st0 h0 u0 "up" c0 now0).ops)
          (feedbackCore (runOps st0 (feedbackCore st0 h0 u0 "up" c0 now0).ops) h0 u0 "up" c1 now1).ops
        = runOps st0 (feedbackCore st0 h0 u0 "up" c0 now0).ops)) :=
  c5_same_vote_noop ⟨[⟨"h1", "u1", "up", "", "t1"⟩], [("h1", ⟨1, 0⟩)]⟩
    "h1" "u1" "up" none "t2" ⟨"h1", "u1", "up", "", "t1"⟩ (by decide) (by decide)

/-- `ADD` on either thumbs attribute moves the counter sum by the delta. -/
theorem sumCounters_addToCounter_vote (c : Counters) (t : String) (d : Int) :
    (addToCounter c (attrOfVote t) d).thumbsUp +
      (addToCounter c (attrOfVote t) d).thumbsDown =
    c.thumbsUp + c.thumbsDown + d := by
  by_cases ht : t = "up" <;> simp [attrOfVote, addToCounter, ht] <;> ring

/-- One call of the feedback core preserves the aggregate invariant:
unique keys, and `thumbsUp + thumbsDown` equal to the number of distinct
users holding a record, per image. -/
theorem feedbackInv_preserved (st : FeedbackState) (h u ty : String)
    (c : Option String) (now : String) (hinv : FeedbackInv st) :
    FeedbackInv (runOps st (feedbackCore st h u ty c now).ops) := by
  obtain ⟨hkeys, hsum⟩ := hinv
  cases hfb : lookupFeedback st.comments h u with
  | none =>
    have hops : (feedbackCore st h u ty c now).ops =
        [DynamoOp.getFeedback h u,
         DynamoOp.putFeedback ⟨h, u, ty, c.getD "", now⟩,
         DynamoOp.addSingle h (attrOfVote ty) 1] := by
      simp [feedbackCore, hfb]
    have hrun : runOps st (feedbackCore st h u ty c now).ops =
        ⟨putFeedbackRec st.comments ⟨h, u, ty, c.getD "", now⟩,
         setCounters st.main h
           (addToCounter (lookupCounters st.main h) (attrOfVote ty) 1)⟩ := by
      rw [hops]
      simp [runOps, applyOp]
    have hcomments : putFeedbackRec st.comments ⟨h, u, ty, c.getD "", now⟩ =
        (⟨h, u, ty, c.getD "", now⟩ : FeedbackRecord) :: st.comments :=
      putFeedbackRec_of_absent _ _ hfb
    rw [hrun]
    constructor
    · exact keysUnique_putFeedbackRec _ _ hkeys
    · intro g
      have hv := hsum g
      unfold sumFor votersFor at hv ⊢
      by_cases hg : g = h
      · subst hg
        rw [lookupCounters_setCounters_self, sumCounters_addToCounter_vote]
        rw [hcomments]
        simp only [List.filter_cons]
        simp
        omega
      · rw [lookupCounters_setCounters_ne _ _ _ _ hg]
        rw [hcomments]
        have hg' : ¬ ((⟨h, u, ty, c.getD "", now⟩ : FeedbackRecord).imageHash = g) :=
          fun e => hg e.symm
        simp only [List.filter_cons]
        simp [hg']
        omega
  | some rec =>
    have hkey := lookupFeedback_key st.comments h u rec hfb
    by_cases hty : rec.voteType = ty
    · have hops : (feedbackCore st h u ty c now).ops = [DynamoOp.getFeedback h u] := by
        simp [feedbackCore, hfb, hty]
      rw [hops]
      have hrun : runOps st [DynamoOp.getFeedback h u] = st := by
        simp [runOps, applyOp]
      rw [hrun]
      exact ⟨hkeys, hsum⟩
    · have hops : (feedbackCore st h u ty c now).ops =
          [DynamoOp.getFeedback h u,
           DynamoOp.updateFeedback h u ty (c.getD "") now,
           DynamoOp.addPair h (attrOfVote ty) (attrOfVote rec.voteType)] := by
        simp [feedbackCore, hfb, hty]
      have hrun : runOps st (feedbackCore st h u ty c now).ops =
          ⟨updateFeedbackRec st.comments h u ty (c.getD "") now,
           setCounters st.main h
             (addToCounter
               (addToCounter (lookupCounters st.main h) (attrOfVote ty) 1)
               (attrOfVote rec.voteType) (-1))⟩ := by
        rw [hops]
        simp [runOps, applyOp]
      have hupd : updateFeedbackRec st.comments h u ty (c.getD "") now =
          putFeedbackRec st.comments
            { rec with voteType := ty, comment := c.getD "", timestamp := now } := by
        simp [updateFeedbackRec, hfb]
      rw [hrun]
      constructor
      · rw [hupd]
        exact keysUnique_putFeedbackRec _ _ hkeys
      · intro g
        have hold2 : lookupFeedback st.comments rec.imageHash rec.userId = some rec := by
          rw [hkey.1, hkey.2]
          exact hfb
        have hcount := votersFilter_putFeedbackRec_present st.comments rec
          { rec with voteType := ty, comment := c.getD "", timestamp := now }
          hkeys hold2 rfl rfl g
        have hv := hsum g
        unfold sumFor votersFor at hv ⊢
        rw [hupd]
        by_cases hg : g = h
        · subst hg
          rw [lookupCounters_setCounters_self, sumCounters_addToCounter_vote,
            sumCounters_addToCounter_vote]
          rw [hcount]
          omega
        · rw [lookupCounters_setCounters_ne _ _ _ _ hg]
          rw [hcount]
          exact hv

/-- C6. A vote change updates the `FeedbackRecord` in place (new type,
comment, timestamp), issues the compensating aggregate update as one
single `addPair` command (+1 new counter, −1 old counter, never two
commands), leaves `thumbsUp + thumbsDown` unchanged, and reports
"Feedback updated successfully" with the previous vote type; moreover
every core call preserves the invariant that each image's counter sum
equals its number of distinct voters. The vote-type hypotheses restrict
to the two legal values, where the paired `ADD` has distinct attribute
paths. -/
theorem c6_vote_change_compensates (st : FeedbackState) (h u newTy : String)
    (old : FeedbackRecord) (c : Option String) (now : String)
    (hold : lookupFeedback st.comments h u = some old)
    (hne : old.voteType ≠ newTy)
    (holdV : old.voteType = "up" ∨ old.voteType = "down")
    (hnewV : newTy = "up" ∨ newTy = "down") :
    (feedbackCore st h u newTy c now).message = some "Feedback updated successfully" ∧
    (feedbackCore st h u newTy c now).previousFeedback = some old.voteType ∧
    (feedbackCore st h u newTy c now).ops =
      [DynamoOp.getFeedback h u,
       DynamoOp.updateFeedback h u newTy (c.getD "") now,
       DynamoOp.addPair h (attrOfVote newTy) (attrOfVote old.voteType)] ∧
    lookupFeedback (runOps st (feedbackCore st h u newTy c now).ops).comments h u =
      some { old with voteType := newTy, comment := c.getD "", timestamp := now } ∧
    sumFor (runOps st (feedbackCore st h u newTy c now).ops) h = sumFor st h ∧
    (∀ st' h' u' ty' c' now', FeedbackInv st' →
      FeedbackInv (runOps st' (feedbackCore st' h' u' ty' c' now').ops)) := by
  have hkey := lookupFeedback_key st.comments h u old hold
  have hne' : ¬ old.voteType = newTy := hne
  have hops : (feedbackCore st h u newTy c now).ops =
      [DynamoOp.getFeedback h u,
       DynamoOp.updateFeedback h u newTy (c.getD "") now,
       DynamoOp.addPair h (attrOfVote newTy) (attrOfVote old.voteType)] := by
    simp [feedbackCore, hold, hne']
  have hrun : runOps st (feedbackCore st h u newTy c now).ops =
      ⟨updateFeedbackRec st.comments h u newTy (c.getD "") now,
       setCounters st.main h
         (addToCounter
           (addToCounter (lookupCounters st.main h) (attrOfVote newTy) 1)
           (attrOfVote old.voteType) (-1))⟩ := by
    rw [hops]
    simp [runOps, applyOp]
  have hupd : updateFeedbackRec st.comments h u newTy (c.getD "") now =
      putFeedbackRec st.comments
        { old with voteType := newTy, comment := c.getD "", timestamp := now } := by
    simp [updateFeedbackRec, hold]
  refine ⟨by simp [feedbackCore, hold, hne'], by simp [feedbackCore, hold, hne'],
    hops, ?_, ?_, ?_⟩
  · rw [hrun]
    show lookupFeedback (updateFeedbackRec st.comments h u newTy (c.getD "") now) h u = _
    rw [hupd]
    exact lookupFeedback_putFeedbackRec _ _ _ _ hkey.1 hkey.2
  · rw [hrun]
    unfold sumFor
    rw [lookupCounters_setCounters_self, sumCounters_addToCounter_vote,
      sumCounters_addToCounter_vote]
    ring
  · intro st' h' u' ty' c' now' hinv
    exact feedbackInv_preserved st' h' u' ty' c' now' hinv

/-- C6 (witness). -/
theorem c6_vote_change_compensates_witness :
    (let st : FeedbackState := ⟨[⟨"h1", "u1", "up", "", "t1"⟩], [("h1", ⟨1, 0⟩)]⟩
     (feedbackCore st "h1" "u1" "down" (some "c") "t2").message =
        some "Feedback updated successfully" ∧
     (feedbackCore st "h1" "u1" "down" (some "c") "t2").previousFeedback = some "up" ∧
     (feedbackCore st "h1" "u1" "down" (some "c") "t2").ops =
        [DynamoOp.getFeedback "h1" "u1",
         DynamoOp.updateFeedback "h1" "u1" "down" "c" "t2",
         DynamoOp.addPair "h1" (attrOfVote "down") (attrOfVote "up")] ∧
     lookupFeedback (runOps st (feedbackCore st "h1" "u1" "down" (some "c") "t2").ops).comments
        "h1" "u1" = some ⟨"h1", "u1", "down", "c", "t2"⟩ ∧
     sumFor (runOps st (feedbackCore st "h1" "u1" "down" (some "c") "t2").ops) "h1" =
        sumFor st "h1" ∧
     (∀ st' h' u' ty' c' now', FeedbackInv st' →
       FeedbackInv (runOps st' (feedbackCore st' h' u' ty' c' now').ops))) :=
  c6_vote_change_compensates ⟨[⟨"h1", "u1", "up", "", "t1"⟩], [("h1", ⟨1, 0⟩)]⟩
    "h1" "u1" "down" ⟨"h1", "u1", "up", "", "t1"⟩ (some "c") "t2"
    (by decide) (by decide) (Or.inl (by decide)) (Or.inr (by decide))

/-- C7 (counterexample). The claim says an empty `imageHash` is rejected
with 400 before any storage access. In the part_001 handler a request with
empty `imageHash` (valid userId and vote type) sails through validation:
a `GetItem` keyed by the empty string is issued and the request ends 200. -/
theorem c7_empty_imageHash_counterexample :
    (let ev : FeedbackEvent :=
        ⟨"POST", ⟨none, none, none, none⟩, ⟨"", "up", none, some "u1"⟩⟩
     let out := handlerFeedbackBody (fun s => s) (fun _ => none) ev "t0" ⟨[], []⟩
     out.result.statusCode = 200 ∧
       DynamoOp.getFeedback "" "u1" ∈ out.result.ops) := by
  decide

/-- C7 (amended). Only `userId` and `voteType` are validated before
storage: in both the part_001 and part_000 variants an unresolvable or
empty userId, or (on a non-OPTIONS request) a vote type other than
"up"/"down", yields 400 with no storage command issued and the state
unchanged — but `imageHash` is never checked, and an empty one reaches
the `GetItem`. -/
theorem c7_validation_before_storage (uof : String → String)
    (pp : List Nat → Option String) (ev : FeedbackEvent) (now : String)
    (st : FeedbackState) (body : FeedbackBody) :
    ((jsTruthy (extractUserId pp ev.headers.authorization) = none →
      jsTruthy ev.body.userId = none →
      (handlerFeedbackBody uof pp ev now st).result.statusCode = 400 ∧
      (handlerFeedbackBody uof pp ev now st).result.ops = [] ∧
      (handlerFeedbackBody uof pp ev now st).state = st) ∧
     (ev.httpMethod ≠ "OPTIONS" → ev.body.feedbackType ≠ "up" →
      ev.body.feedbackType ≠ "down" →
      (handlerFeedbackBody uof pp ev now st).result.statusCode = 400 ∧
      (handlerFeedbackBody uof pp ev now st).result.ops = [] ∧
      (handlerFeedbackBody uof pp ev now st).state = st)) ∧
    ((jsTruthy body.userId = none →
      (handlerFeedbackSubmit body now st).1.statusCode = 400 ∧
      (handlerFeedbackSubmit body now st).1.ops = [] ∧
      (handlerFeedbackSubmit body now st).2 = st) ∧
     (body.feedbackType ≠ "up" → body.feedbackType ≠ "down" →
      (handlerFeedbackSubmit body now st).1.statusCode = 400 ∧
      (handlerFeedbackSubmit body now st).1.ops = [] ∧
      (handlerFeedbackSubmit body now st).2 = st)) := by
  refine ⟨⟨?_, ?_⟩, ⟨?_, ?_⟩⟩
  · intro htok hbody
    simp [handlerFeedbackBody, htok, hbody]
  · intro hm h1 h2
    cases htok : jsTruthy (extractUserId pp ev.headers.authorization) with
    | none =>
      cases hbody : jsTruthy ev.body.userId with
      | none => simp [handlerFeedbackBody, htok, hbody]
      | some u => simp [handlerFeedbackBody, htok, hbody, hm, h1, h2]
    | some u => simp [handlerFeedbackBody, htok, hm, h1, h2]
  · intro hbody
    simp [handlerFeedbackSubmit, hbody]
  · intro h1 h2
    cases hbody : jsTruthy body.userId with
    | none => simp [handlerFeedbackSubmit, hbody]
    | some u => simp [handlerFeedbackSubmit, hbody, h1, h2]

/-- C7 (witness). -/
theorem c7_validation_before_storage_witness :
    (let ev : FeedbackEvent :=
        ⟨"POST", ⟨none, none, none, none⟩, ⟨"h1", "sideways", none, none⟩⟩
     (handlerFeedbackBody (fun s => s) (fun _ => none) ev "t0" ⟨[], []⟩).result.statusCode = 400 ∧
     (handlerFeedbackBody (fun s => s) (fun _ => none) ev "t0" ⟨[], []⟩).result.ops = [] ∧
     (handlerFeedbackBody (fun s => s) (fun _ => none) ev "t0" ⟨[], []⟩).state = ⟨[], []⟩) ∧
    ((handlerFeedbackSubmit ⟨"h1", "sideways", none, some "u1"⟩ "t0" ⟨[], []⟩).1.statusCode = 400 ∧
     (handlerFeedbackSubmit ⟨"h1", "sideways", none, some "u1"⟩ "t0" ⟨[], []⟩).1.ops = [] ∧
     (handlerFeedbackSubmit ⟨"h1", "sideways", none, some "u1"⟩ "t0" ⟨[], []⟩).2 = ⟨[], []⟩) :=
  ⟨(c7_validation_before_storage (fun s => s) (fun _ => none)
      ⟨"POST", ⟨none, none, none, none⟩, ⟨"h1", "sideways", none, none⟩⟩ "t0" ⟨[], []⟩
      ⟨"h1", "sideways", none, some "u1"⟩).1.1 (by decide) (by decide),
   (c7_validation_before_storage (fun s => s) (fun _ => none)
      ⟨"POST", ⟨none, none, none, none⟩, ⟨"h1", "sideways", none, none⟩⟩ "t0" ⟨[], []⟩
      ⟨"h1", "sideways", none, some "u1"⟩).2.2 (by decide) (by decide)⟩

/-! ## Claim C8: the content hash -/

theorem length_hexWord (w : Nat) : (hexWord w).length = 8 := rfl

theorem length_digestChars (st : Sha256State) : (digestChars st).length = 64 := by
  simp [digestChars, length_hexWord]

theorem length_sha256Hex (b : List Nat) : (sha256Hex b).toList.length = 64 :=
  length_digestChars (sha256Digest b)

theorem mem_hexWord (c : Char) (w : Nat) (hc : c ∈ hexWord w) :
    ∃ v, v < 16 ∧ c = hexDigit v := by
  simp only [hexWord, List.mem_cons, List.not_mem_nil, or_false] at hc
  rcases hc with h | h | h | h | h | h | h | h <;>
    exact ⟨_, Nat.mod_lt _ (by norm_num), h⟩

theorem mem_digestChars (c : Char) (st : Sha256State) (hc : c ∈ digestChars st) :
    ∃ v, v < 16 ∧ c = hexDigit v := by
  simp only [digestChars, List.mem_append] at hc
  rcases hc with ((((((h | h) | h) | h) | h) | h) | h) | h <;> exact mem_hexWord c _ h

theorem hexVal_hexDigit : ∀ v, v < 16 → hexVal (hexDigit v) = v := by decide

theorem hexVal_sha256Hex_lt (b : List Nat) (i : Nat) (hi : i < 64) :
    hexVal ((sha256Hex b).toList.getD i 'x') < 16 := by
  have hlen : (sha256Hex b).toList.length = 64 := length_sha256Hex b
  have hi' : i < (sha256Hex b).toList.length := by omega
  rw [List.getD_eq_getElem _ _ hi']
  have hmem : (sha256Hex b).toList[i] ∈ (sha256Hex b).toList := List.getElem_mem hi'
  obtain ⟨v, hv, he⟩ := mem_digestChars _ (sha256Digest b) hmem
  rw [he, hexVal_hexDigit v hv]
  exact hv

theorem sha256Hex_eq_of_digitVec_eq (b1 b2 : List Nat)
    (h : digitVec b1 = digitVec b2) : sha256Hex b1 = sha256Hex b2 := by
  have hlen1 : (sha256Hex b1).toList.length = 64 := length_sha256Hex b1
  have hlen2 : (sha256Hex b2).toList.length = 64 := length_sha256Hex b2
  have hlist : (sha256Hex b1).toList = (sha256Hex b2).toList := by
    apply List.ext_getElem (by omega)
    intro i h1 h2
    have hi : i < 64 := by omega
    have hv1 := congrFun h ⟨i, hi⟩
    have hv1' : hexVal ((sha256Hex b1).toList.getD i 'x') % 16 =
        hexVal ((sha256Hex b2).toList.getD i 'x') % 16 := congrArg Fin.val hv1
    rw [List.getD_eq_getElem _ _ h1, List.getD_eq_getElem _ _ h2] at hv1'
    obtain ⟨v1, hlt1, he1⟩ :=
      mem_digestChars _ (sha256Digest b1) (List.getElem_mem h1)
    obtain ⟨v2, hlt2, he2⟩ :=
      mem_digestChars _ (sha256Digest b2) (List.getElem_mem h2)
    rw [he1, he2] at hv1' ⊢
    rw [hexVal_hexDigit v1 hlt1, hexVal_hexDigit v2 hlt2,
      Nat.mod_eq_of_lt hlt1, Nat.mod_eq_of_lt hlt2] at hv1'
    rw [hv1']
  have : (sha256Hex b1).toList = digestChars (sha256Digest b1) := rfl
  calc sha256Hex b1 = String.mk (sha256Hex b1).toList := rfl
    _ = String.mk (sha256Hex b2).toList := by rw [hlist]
    _ = sha256Hex b2 := rfl

/-- C8 (counterexample). The "only" direction of the claim is false: a
fixed-length digest over unboundedly many inputs cannot be injective, so
two distinct byte buffers share a `contentHash` (pigeonhole over the
`16 ^ 64` possible digests). -/
theorem c8_hash_not_injective_counterexample :
    ¬ (∀ b1 b2 : List Nat, sha256Hex b1 = sha256Hex b2 → b1 = b2) := by
  intro hinj
  obtain ⟨m, n, hmn, hfe⟩ :=
    Finite.exists_ne_map_eq_of_infinite (fun k : Nat => digitVec (List.replicate k 0))
  have hhex := sha256Hex_eq_of_digitVec_eq _ _ hfe
  have hrep := hinj _ _ hhex
  have hlen := congrArg List.length hrep
  simp at hlen
  exact hmn hlen

/-- C8 (amended). The `contentHash` is a deterministic function of the
exact byte sequence with a fixed 64-hex-character output: byte-identical
buffers always produce the identical digest string. The converse does not
hold (see the counterexample): hash equality cannot guarantee byte
equality, collision resistance being computational rather than absolute. -/
theorem c8_hash_deterministic (b1 b2 : List Nat) (h : b1 = b2) :
    sha256Hex b1 = sha256Hex b2 ∧ (sha256Hex b1).toList.length = 64 :=
  ⟨by rw [h], length_sha256Hex b1⟩

/-- C8 (witness). -/
theorem c8_hash_deterministic_witness :
    sha256Hex [1, 2, 3] = sha256Hex [1, 2, 3] ∧
      (sha256Hex [1, 2, 3]).toList.length = 64 :=
  c8_hash_deterministic [1, 2, 3] [1, 2, 3] rfl

/-! ## Claim C10: token decoding lemmas -/

theorem toList_append (a b : String) : (a ++ b).toList = a.toList ++ b.toList := rfl

theorem splitOnChar_ne_nil (c : Char) (l : List Char) : splitOnChar c l ≠ [] := by
  cases l with
  | nil => simp [splitOnChar]
  | cons x xs =>
    unfold splitOnChar
    by_cases hx : x = c
    · simp [hx]
    · simp only [if_neg hx]
      cases splitOnChar c xs <;> simp

theorem takeWhile_all {p : Char → Bool} (l : List Char) (hall : ∀ x ∈ l, p x = true) :
    l.takeWhile p = l := by
  induction l with
  | nil => rfl
  | cons a t ih =>
    rw [List.takeWhile_cons, hall a (by simp)]
    rw [ih (fun x hx => hall x (by simp [hx]))]
    simp

theorem takeWhile_append_all {p : Char → Bool} (xs ys : List Char)
    (hall : ∀ x ∈ xs, p x = true) :
    (xs ++ ys).takeWhile p = xs ++ ys.takeWhile p := by
  induction xs with
  | nil => rfl
  | cons a t ih =>
    rw [List.cons_append, List.takeWhile_cons, hall a (by simp)]
    rw [ih (fun x hx => hall x (by simp [hx]))]
    rfl

theorem splitOnChar_cons_ne (c x : Char) (xs : List Char) (hx : x ≠ c) :
    splitOnChar c (x :: xs) =
      match splitOnChar c xs with
      | [] => [[x]]
      | y :: ys => (x :: y) :: ys := by
  conv_lhs => rw [splitOnChar]
  rw [if_neg hx]

theorem splitOnChar_head (c : Char) (l : List Char) :
    (splitOnChar c l).getD 0 [] = l.takeWhile (fun x => x ≠ c) := by
  induction l with
  | nil => rfl
  | cons x xs ih =>
    by_cases hx : x = c
    · subst hx
      rw [show splitOnChar x (x :: xs) = [] :: splitOnChar x xs from by
        conv_lhs => rw [splitOnChar]
        rw [if_pos rfl]]
      rw [List.takeWhile_cons]
      simp
    · rw [splitOnChar_cons_ne c x xs hx]
      rw [List.takeWhile_cons, show (decide (x ≠ c)) = true by simp [hx]]
      rcases hsp : splitOnChar c xs with _ | ⟨y, ys⟩
      · exact absurd hsp (splitOnChar_ne_nil c xs)
      · rw [hsp] at ih
        simp only [List.getD_cons_zero] at ih
        show x :: y = x :: xs.takeWhile (fun x => x ≠ c)
        rw [ih]

theorem splitOnChar_append_sep (c : Char) (xs ys : List Char) (hxs : c ∉ xs) :
    splitOnChar c (xs ++ c :: ys) = xs :: splitOnChar c ys := by
  induction xs with
  | nil => simp [splitOnChar]
  | cons a t ih =>
    have ha : a ≠ c := fun e => hxs (by simp [e])
    have ht : c ∉ t := fun e => hxs (by simp [e])
    rw [List.cons_append, splitOnChar_cons_ne c a _ ha, ih ht]

theorem splitOnChar_no_sep (c : Char) (l : List Char) (hl : c ∉ l) :
    splitOnChar c l = [l] := by
  induction l with
  | nil => rfl
  | cons a t ih =>
    have ha : a ≠ c := fun e => hl (by simp [e])
    have ht : c ∉ t := fun e => hl (by simp [e])
    rw [splitOnChar_cons_ne c a t ha, ih ht]

theorem isPrefixOf_append_left (l r : List Char) : l.isPrefixOf (l ++ r) = true := by
  induction l with
  | nil => simp [List.isPrefixOf]
  | cons a t ih => simp [List.isPrefixOf, ih]

/-- The decoded userId is a function of the payload segment alone: for any
well-formed `Bearer` header `Bearer hd.p.s` whose header-part and payload
contain no space and no dot, `extractUserId` base64-decodes exactly `p`
and never inspects the signature. -/
theorem extractUserId_payload_only (pp : List Nat → Option String)
    (hd p s : String)
    (hhd1 : ' ' ∉ hd.toList) (hhd2 : '.' ∉ hd.toList)
    (hp1 : ' ' ∉ p.toList) (hp2 : '.' ∉ p.toList) :
    extractUserId pp (some ("Bearer " ++ hd ++ "." ++ p ++ "." ++ s)) =
      pp (base64DecodeBytes p.toList) := by
  have hlist : ("Bearer " ++ hd ++ "." ++ p ++ "." ++ s).toList =
      "Bearer".toList ++ ' ' :: (hd.toList ++ '.' :: (p.toList ++ '.' :: s.toList)) := by
    simp [toList_append]
  have hne : ("Bearer " ++ hd ++ "." ++ p ++ "." ++ s) ≠ "" := by
    intro he
    have := congrArg String.toList he
    rw [hlist] at this
    simp at this
  have hpre : jsStartsWith ("Bearer " ++ hd ++ "." ++ p ++ "." ++ s) "Bearer " = true := by
    unfold jsStartsWith
    rw [hlist]
    have : "Bearer ".toList ++ (hd.toList ++ '.' :: (p.toList ++ '.' :: s.toList)) =
        "Bearer".toList ++ ' ' :: (hd.toList ++ '.' :: (p.toList ++ '.' :: s.toList)) := rfl
    rw [← this]
    exact isPrefixOf_append_left _ _
  simp only [extractUserId]
  rw [if_neg hne]
  rw [if_neg (show ¬ (jsStartsWith ("Bearer " ++ hd ++ "." ++ p ++ "." ++ s)
    "Bearer " = false) by simp [hpre])]
  rw [hlist]
  rw [splitOnChar_append_sep ' ' _ _ (by decide)]
  have htoken : (("Bearer".toList : List Char) ::
      splitOnChar ' ' (hd.toList ++ '.' :: (p.toList ++ '.' :: s.toList))).getD 1 [] =
      (splitOnChar ' ' (hd.toList ++ '.' :: (p.toList ++ '.' :: s.toList))).getD 0 [] := rfl
  rw [htoken, splitOnChar_head]
  have htw : (hd.toList ++ '.' :: (p.toList ++ '.' :: s.toList)).takeWhile
      (fun x => x ≠ ' ') =
      hd.toList ++ '.' :: (p.toList ++ '.' :: s.toList.takeWhile (fun x => x ≠ ' ')) := by
    rw [takeWhile_append_all _ _ (fun x hx => by
      simp
      exact fun e => hhd1 (e ▸ hx))]
    rw [List.takeWhile_cons]
    simp only [show (decide (('.' : Char) ≠ ' ')) = true by decide]
    rw [takeWhile_append_all _ _ (fun x hx => by
      simp
      exact fun e => hp1 (e ▸ hx))]
    rw [List.takeWhile_cons]
    simp
  rw [htw]
  rw [splitOnChar_append_sep '.' _ _ hhd2]
  rw [splitOnChar_append_sep '.' _ _ hp2]
  rfl

/-! ## Claims C9 and C10 -/

/-- C9 (counterexample). In the part_001 variant the userId is resolved
before the OPTIONS branch: an OPTIONS preflight without a resolvable
userId is answered 400, not 200, contradicting "for every request with
HTTP method OPTIONS, the handler returns a 200 preflight response ...
without resolving a userId". -/
theorem c9_options_counterexample :
    (let ev : FeedbackEvent :=
        ⟨"OPTIONS", ⟨none, none, none, none⟩, ⟨"h", "up", none, none⟩⟩
     (handlerFeedbackBody (fun s => s) (fun _ => none) ev "t0" ⟨[], []⟩).result.statusCode
       = 400) := by
  decide

/-- C9 (amended). The token-authenticated feedback handler answers OPTIONS
first: 200, no storage command, unchanged state, headers
`Content-Type, Authorization`, the resolved origin echoed, and the answer
independent of the request body. The ingestion handler also answers
OPTIONS first with 200 and the untouched state, but allows only
`Content-Type` (not `Authorization`). The part_001 variant, by contrast,
resolves the userId before the OPTIONS branch and rejects a
userId-less preflight with 400 (an OPTIONS request with a resolvable
userId still gets 200). -/
theorem c9_preflight_behaviour (uof : String → String)
    (pp : List Nat → Option String) (ev : FeedbackEvent) (b2 : FeedbackBody)
    (iev : IngestEvent) (pHash : String) (urlFormat : Option String)
    (now : String) (readBack : List Nat) (st : FeedbackState)
    (ist : PipelineState) :
    (ev.httpMethod = "OPTIONS" →
      (handlerFeedbackAuth uof pp ev now st).result.statusCode = 200 ∧
      (handlerFeedbackAuth uof pp ev now st).result.ops = [] ∧
      (handlerFeedbackAuth uof pp ev now st).state = st ∧
      (handlerFeedbackAuth uof pp ev now st).allowHeaders =
        "Content-Type, Authorization" ∧
      (handlerFeedbackAuth uof pp ev now st).allowOrigin =
        resolveAllowOrigin (getValidOrigin uof ev.headers) ∧
      handlerFeedbackAuth uof pp { ev with body := b2 } now st =
        handlerFeedbackAuth uof pp ev now st) ∧
    (iev.httpMethod = "OPTIONS" →
      (handlerIngest iev pHash urlFormat now readBack ist).response.statusCode = 200 ∧
      (handlerIngest iev pHash urlFormat now readBack ist).state = ist ∧
      (handlerIngest iev pHash urlFormat now readBack ist).response.allowHeaders =
        some "Content-Type") ∧
    (ev.httpMethod = "OPTIONS" →
      jsTruthy (extractUserId pp ev.headers.authorization) = none →
      jsTruthy ev.body.userId = none →
      (handlerFeedbackBody uof pp ev now st).result.statusCode = 400) ∧
    (ev.httpMethod = "OPTIONS" →
      (∃ u, jsTruthy (extractUserId pp ev.headers.authorization) = some u) →
      (handlerFeedbackBody uof pp ev now st).result.statusCode = 200) := by
  refine ⟨?_, ?_, ?_, ?_⟩
  · intro hm
    refine ⟨?_, ?_, ?_, ?_, ?_, ?_⟩ <;> simp [handlerFeedbackAuth, hm]
  · intro hm
    refine ⟨?_, ?_, ?_⟩ <;> simp [handlerIngest, hm]
  · intro hm htok hbody
    simp [handlerFeedbackBody, htok, hbody]
  · intro hm htok
    obtain ⟨u, hu⟩ := htok
    simp [handlerFeedbackBody, hu, hm]

/-- C9 (witness). -/
theorem c9_preflight_behaviour_witness :
    (let ev : FeedbackEvent :=
        ⟨"OPTIONS", ⟨none, some "https://realeyes.ai", none, none⟩, ⟨"h", "up", none, none⟩⟩
     let iev : IngestEvent := ⟨"OPTIONS", "https://realeyes.ai", none, []⟩
     ((handlerFeedbackAuth (fun s => s) (fun _ => none) ev "t0" ⟨[], []⟩).result.statusCode = 200 ∧
      (handlerFeedbackAuth (fun s => s) (fun _ => none) ev "t0" ⟨[], []⟩).result.ops = [] ∧
      (handlerFeedbackAuth (fun s => s) (fun _ => none) ev "t0" ⟨[], []⟩).state = ⟨[], []⟩ ∧
      (handlerFeedbackAuth (fun s => s) (fun _ => none) ev "t0" ⟨[], []⟩).allowHeaders =
        "Content-Type, Authorization" ∧
      (handlerFeedbackAuth (fun s => s) (fun _ => none) ev "t0" ⟨[], []⟩).allowOrigin =
        resolveAllowOrigin (getValidOrigin (fun s => s) ev.headers) ∧
      handlerFeedbackAuth (fun s => s) (fun _ => none)
          { ev with body := ⟨"h2", "down", some "x", some "u9"⟩ } "t0" ⟨[], []⟩ =
        handlerFeedbackAuth (fun s => s) (fun _ => none) ev "t0" ⟨[], []⟩) ∧
     ((handlerIngest iev "p" none "t0" [] ⟨[], []⟩).response.statusCode = 200 ∧
      (handlerIngest iev "p" none "t0" [] ⟨[], []⟩).state = ⟨[], []⟩ ∧
      (handlerIngest iev "p" none "t0" [] ⟨[], []⟩).response.allowHeaders =
        some "Content-Type") ∧
     (handlerFeedbackBody (fun s => s) (fun _ => none) ev "t0" ⟨[], []⟩).result.statusCode
        = 400) :=
  (fun big =>
    ⟨big.1 rfl, big.2.1 rfl, big.2.2.1 rfl rfl rfl⟩)
    (c9_preflight_behaviour (fun s => s) (fun _ => none)
      ⟨"OPTIONS", ⟨none, some "https://realeyes.ai", none, none⟩, ⟨"h", "up", none, none⟩⟩
      ⟨"h2", "down", some "x", some "u9"⟩
      ⟨"OPTIONS", "https://realeyes.ai", none, []⟩ "p" none "t0" [] ⟨[], []⟩ ⟨[], []⟩)

/-- C10. The userId extracted from a Bearer token is a function of the
base64-decoded payload segment alone: tokens sharing a payload segment
yield the same userId whatever their signature segments, and the
extraction equals `parsePayload` applied to the base64 bytes of the
payload; no signature is ever verified. A missing header, a non-Bearer
header, or a token without a second dot-segment extracts `none` (the
function is total — never an exception). On `none`, the
`handleImageFeedback` variant rejects with 401 and touches no storage,
while the part_001 variant falls back to the body-supplied userId and
runs the core with it. -/
theorem c10_token_payload_extraction (pp : List Nat → Option String)
    (hd p s1 s2 h t : String) (uof : String → String) (ev : FeedbackEvent)
    (now : String) (st : FeedbackState) (u : String)
    (hhd1 : ' ' ∉ hd.toList) (hhd2 : '.' ∉ hd.toList)
    (hp1 : ' ' ∉ p.toList) (hp2 : '.' ∉ p.toList) :
    extractUserId pp (some ("Bearer " ++ hd ++ "." ++ p ++ "." ++ s1)) =
      extractUserId pp (some ("Bearer " ++ hd ++ "." ++ p ++ "." ++ s2)) ∧
    extractUserId pp (some ("Bearer " ++ hd ++ "." ++ p ++ "." ++ s1)) =
      pp (base64DecodeBytes p.toList) ∧
    extractUserId pp none = none ∧
    (jsStartsWith h "Bearer " = false → extractUserId pp (some h) = none) ∧
    ('.' ∉ t.toList → ' ' ∉ t.toList →
      extractUserId pp (some ("Bearer " ++ t)) = none) ∧
    (ev.httpMethod ≠ "OPTIONS" → extractUserId pp ev.headers.authorization = none →
      (handlerFeedbackAuth uof pp ev now st).result.statusCode = 401 ∧
      (handlerFeedbackAuth uof pp ev now st).result.ops = [] ∧
      (handlerFeedbackAuth uof pp ev now st).state = st) ∧
    (extractUserId pp ev.headers.authorization = none →
      jsTruthy ev.body.userId = some u →
      ev.httpMethod ≠ "OPTIONS" →
      (ev.body.feedbackType = "up" ∨ ev.body.feedbackType = "down") →
      (handlerFeedbackBody uof pp ev now st).result =
        feedbackCore st ev.body.imageHash u ev.body.feedbackType ev.body.comment now ∧
      (handlerFeedbackBody uof pp ev now st).state =
        runOps st (feedbackCore st ev.body.imageHash u
          ev.body.feedbackType ev.body.comment now).ops) := by
  refine ⟨?_, ?_, rfl, ?_, ?_, ?_, ?_⟩
  · rw [extractUserId_payload_only pp hd p s1 hhd1 hhd2 hp1 hp2,
      extractUserId_payload_only pp hd p s2 hhd1 hhd2 hp1 hp2]
  · exact extractUserId_payload_only pp hd p s1 hhd1 hhd2 hp1 hp2
  · intro hst
    by_cases hh : h = "" <;> simp [extractUserId, hh, hst]
  · intro hdot hsp
    have hlist : ("Bearer " ++ t).toList = "Bearer".toList ++ ' ' :: t.toList := by
      simp [toList_append]
    have hne : ("Bearer " ++ t) ≠ "" := by
      intro he
      have := congrArg String.toList he
      rw [hlist] at this
      simp at this
    have hpre : jsStartsWith ("Bearer " ++ t) "Bearer " = true := by
      unfold jsStartsWith
      rw [hlist]
      exact isPrefixOf_append_left _ _
    simp only [extractUserId]
    rw [if_neg hne]
    rw [if_neg (show ¬ (jsStartsWith ("Bearer " ++ t) "Bearer " = false) by simp [hpre])]
    rw [hlist]
    rw [splitOnChar_append_sep ' ' _ _ (by decide)]
    rw [show (("Bearer".toList : List Char) :: splitOnChar ' ' t.toList).getD 1 [] =
      (splitOnChar ' ' t.toList).getD 0 [] from rfl]
    rw [splitOnChar_head]
    rw [takeWhile_all t.toList (fun x hx => by
      simp
      exact fun e => hsp (e ▸ hx))]
    rw [splitOnChar_no_sep '.' t.toList hdot]
    rfl
  · intro hm hex
    refine ⟨?_, ?_, ?_⟩ <;> simp [handlerFeedbackAuth, hm, hex]
  · intro hex hu hm hty
    have hnone : jsTruthy (extractUserId pp ev.headers.authorization) = none := by
      rw [hex]
      rfl
    rcases hty with hty | hty <;>
      exact ⟨by simp [handlerFeedbackBody, hnone, hu, hm, hty],
             by simp [handlerFeedbackBody, hnone, hu, hm, hty]⟩

/-- C10 (witness). -/
theorem c10_token_payload_extraction_witness :
    (let pp : List Nat → Option String := fun _ => some "alice"
     let ev : FeedbackEvent :=
        ⟨"POST", ⟨none, none, none, some "garbage"⟩, ⟨"h1", "up", none, some "u1"⟩⟩
     extractUserId pp (some ("Bearer " ++ "hh" ++ "." ++ "cGF5" ++ "." ++ "sigA")) =
        extractUserId pp (some ("Bearer " ++ "hh" ++ "." ++ "cGF5" ++ "." ++ "sigB")) ∧
     extractUserId pp (some ("Bearer " ++ "hh" ++ "." ++ "cGF5" ++ "." ++ "sigA")) =
        pp (base64DecodeBytes "cGF5".toList) ∧
     extractUserId pp none = none ∧
     extractUserId pp (some "Basic xyz") = none ∧
     extractUserId pp (some ("Bearer " ++ "nodots")) = none ∧
     ((handlerFeedbackAuth (fun s => s) pp ev "t0" ⟨[], []⟩).result.statusCode = 401 ∧
      (handlerFeedbackAuth (fun s => s) pp ev "t0" ⟨[], []⟩).result.ops = [] ∧
      (handlerFeedbackAuth (fun s => s) pp ev "t0" ⟨[], []⟩).state = ⟨[], []⟩) ∧
     ((handlerFeedbackBody (fun s => s) pp ev "t0" ⟨[], []⟩).result =
        feedbackCore ⟨[], []⟩ "h1" "u1" "up" none "t0" ∧
      (handlerFeedbackBody (fun s => s) pp ev "t0" ⟨[], []⟩).state =
        runOps ⟨[], []⟩ (feedbackCore ⟨[], []⟩ "h1" "u1" "up" none "t0").ops)) := by
  have T := c10_token_payload_extraction (fun _ => some "alice") "hh" "cGF5"
    "sigA" "sigB" "Basic xyz" "nodots" (fun s => s)
    ⟨"POST", ⟨none, none, none, some "garbage"⟩, ⟨"h1", "up", none, some "u1"⟩⟩
    "t0" ⟨[], []⟩ "u1" (by decide) (by decide) (by decide) (by decide)
  exact ⟨T.1, T.2.1, T.2.2.1, T.2.2.2.1 (by decide),
    T.2.2.2.2.1 (by decide) (by decide),
    T.2.2.2.2.2.1 (by decide) (by decide),
    T.2.2.2.2.2.2 (by decide) (by decide) (by decide) (Or.inl (by decide))⟩

/-! ## Reference computations -/

/-- FIPS 180-4 test vector: the empty message. -/
theorem sha256Hex_empty : sha256Hex [] =
    "e3b0c44298fc1c149afbf4c8996fb92427ae41e4649b934ca495991b7852b855" := by
  decide

/-- FIPS 180-4 test vector: the message "abc". -/
theorem sha256Hex_abc : sha256Hex [97, 98, 99] =
    "ba7816bf8f01cfea414140de5dae2223b00361a396177a9cb410ff61f20015ad" := by
  decide

/-- The spec scenario: user u1 votes "up" then "up" again on h1. -/
theorem feedback_scenario_up_up :
    (let st0 : FeedbackState := ⟨[], []⟩
     let r1 := feedbackCore st0 "h1" "u1" "up" none "t1"
     let st1 := runOps st0 r1.ops
     let r2 := feedbackCore st1 "h1" "u1" "up" none "t2"
     r2.message = some "Feedback already received" ∧ runOps st1 r2.ops = st1 ∧
       lookupCounters st1.main "h1" = ⟨1, 0⟩) := by
  decide

/-- The spec scenario: user u1 votes "up" then "down" on h1. -/
theorem feedback_scenario_up_down :
    (let st0 : FeedbackState := ⟨[], []⟩
     let r1 := feedbackCore st0 "h1" "u1" "up" none "t1"
     let st1 := runOps st0 r1.ops
     let r2 := feedbackCore st1 "h1" "u1" "down" (some "c") "t2"
     let st2 := runOps st1 r2.ops
     r2.previousFeedback = some "up" ∧ lookupCounters st2.main "h1" = ⟨0, 1⟩ ∧
       r2.message = some "Feedback updated successfully") := by
  decide

end NodeProxy
